import Mathlib

/-!
Verification of the job-posting extraction engine of the resume-automation
repository (`backend/job_parser.py`).

The Python code is shallowly embedded with text represented as lists of
Unicode code points (`Txt := List Nat`; `String.tx` converts a Lean
string literal).  Every regular expression of the source is transcribed
as an expression of a small backtracking pattern-matching combinator
library whose alternative lists are ordered exactly by Python `re`
backtracking priority (leftmost match first, alternation in written
order, greedy quantifiers longest-first, lazy quantifiers
shortest-first), so that the head of the alternative list is the match
Python reports.

External collaborators are modeled explicitly:
 * `requests.get` (used only by `_try_api_endpoints`) becomes a `Net`
   parameter mapping an endpoint URL to `none` (connection failure,
   timeout or non-200 status) or a response;
 * `json.loads` becomes a `JParse` parameter producing an optional
   `JValue`;
 * BeautifulSoup's `body.get_text()` (used only by `_is_spa_page`) is
   modeled as tag-stripping of the contents of the first body element;
 * `urllib.parse.urlparse` / `unquote` / `parse_qs` are modeled directly
   for the absolute-URL shapes the parser handles.
-/

/-! # Text as code-point lists, and Python string primitives -/

/-- Program text: a list of Unicode code points. -/
abbrev Txt := List Nat

/-- Code points of a string literal. -/
def String.tx (s : String) : Txt := s.data.map Char.toNat

/-- Code point of a character. -/
def Char.cp (c : Char) : Nat := c.toNat

/-- Python `\s` / `str.strip` whitespace set
(space, tab, newline, carriage return, vertical tab, form feed). -/
def isWsC (c : Nat) : Bool := c = 32 || (9 ≤ c && c ≤ 13)

/-- Decimal digit. -/
def isDigitC (c : Nat) : Bool := 48 ≤ c && c ≤ 57

/-- ASCII letter (the model of `str.isalpha` / cased characters and of
`[A-Za-z]`, and of `[A-Z]` under `re.IGNORECASE`). -/
def isAlphaC (c : Nat) : Bool := (65 ≤ c && c ≤ 90) || (97 ≤ c && c ≤ 122)

/-- `\w` word characters (ASCII model). -/
def isWordC (c : Nat) : Bool := isAlphaC c || isDigitC c || c = '_'.cp

/-- `str.lower` on one character (ASCII model, as in Lean's
`Char.toLower`). -/
def lowC (c : Nat) : Nat := if 65 ≤ c && c ≤ 90 then c + 32 else c

/-- `str.upper` on one character (ASCII model). -/
def upC (c : Nat) : Nat := if 97 ≤ c && c ≤ 122 then c - 32 else c

/-- Python `str.lower()`. -/
def lowerL (l : Txt) : Txt := l.map lowC

/-- `hasPre pat l` : `pat` begins `l` (exact case). -/
def hasPre : Txt → Txt → Bool
  | [], _ => true
  | _ :: _, [] => false
  | p :: ps, c :: rest => p = c && hasPre ps rest

/-- `hasPreCI pat l` : `pat` begins `l`, ignoring case. -/
def hasPreCI : Txt → Txt → Bool
  | [], _ => true
  | _ :: _, [] => false
  | p :: ps, c :: rest => lowC p = lowC c && hasPreCI ps rest

/-- Python `pat in hay` (contiguous substring, exact case). -/
def containsSub (hay pat : Txt) : Bool :=
  match hay with
  | [] => hasPre pat []
  | _ :: rest => hasPre pat hay || containsSub rest pat

/-- Contiguous substring ignoring case. -/
def containsSubCI (hay pat : Txt) : Bool :=
  match hay with
  | [] => hasPreCI pat []
  | _ :: rest => hasPreCI pat hay || containsSubCI rest pat

/-- Python `str.strip()` (whitespace from both ends). -/
def stripWsL (l : Txt) : Txt :=
  ((l.dropWhile isWsC).reverse.dropWhile isWsC).reverse

/-- Python `str.strip(chars)`. -/
def stripSetL (set l : Txt) : Txt :=
  ((l.dropWhile (set.contains ·)).reverse.dropWhile (set.contains ·)).reverse

/-- Python `str.replace(a, b)` for single characters. -/
def replCharL (a b : Nat) (l : Txt) : Txt :=
  l.map (fun c => if c = a then b else c)

/-- Python `str.title()` : a cased letter following a non-letter is
uppercased, every other letter lowercased (ASCII model). -/
def titleCaseL (l : Txt) : Txt :=
  (l.foldl
    (fun (st : Txt × Bool) c =>
      if isAlphaC c then
        (((if st.2 then lowC c else upC c) :: st.1), true)
      else (c :: st.1, false))
    ([], false)).1.reverse

/-- Python `str.isdigit()` (nonempty, all digits). -/
def isDigitsL (l : Txt) : Bool :=
  !l.isEmpty && l.all isDigitC

/-- `int(s)` on a string of decimal digits; `none` when the string is
empty or holds a non-digit (Python `int` would raise `ValueError`). -/
def natOfDigits? (l : Txt) : Option Nat :=
  if isDigitsL l then some (l.foldl (fun acc c => 10 * acc + (c - 48)) 0)
  else none

/-- Decimal digit code points of a natural number (`str(n)`). -/
def natDigitsAux : Nat → Nat → Txt → Txt
  | 0, _, acc => acc
  | fuel + 1, n, acc =>
    if n < 10 then (48 + n) :: acc
    else natDigitsAux fuel (n / 10) ((48 + n % 10) :: acc)

def natDigitsL (n : Nat) : Txt := natDigitsAux (n + 1) n []

/-- Insert thousands separators (Python `f"{n:,}"`) into a digit list. -/
def commaGroupL (l : Txt) : Txt :=
  let rec go : Txt → Txt
    | [] => []
    | [a] => [a]
    | [a, b] => [a, b]
    | [a, b, c] => [a, b, c]
    | a :: b :: c :: d :: rest => a :: b :: c :: ','.cp :: go (d :: rest)
  (go l.reverse).reverse

/-- Python `f"{n:,}"` for a natural number. -/
def commaFmt (n : Nat) : Txt := commaGroupL (natDigitsL n)

/-- Truthiness of a Python string. -/
def truthyS (s : Txt) : Bool := !s.isEmpty

/-- Truthiness of a Python `Optional[str]`. -/
def truthyO : Option Txt → Bool
  | none => false
  | some s => truthyS s

/-- Read a truthy-checked optional string. -/
def getS : Option Txt → Txt
  | none => []
  | some s => s

/-! # Pattern-matching combinators

A pattern is a function from the input to the list of all ways it can
match a prefix of the input, each way giving the captured groups and the
rest of the input.  The list is ordered by Python `re` backtracking
priority, so the head is the match `re` reports. -/

abbrev RCaps := List Txt

abbrev Rx := Txt → List (RCaps × Txt)

/-- Empty pattern (matches nothing, consumes nothing). -/
def rEps : Rx := fun l => [([], l)]

/-- Single character satisfying a predicate (a character class). -/
def rCl (f : Nat → Bool) : Rx := fun l =>
  match l with
  | [] => []
  | c :: rest => if f c then [([], rest)] else []

/-- Literal character, case-insensitive (`re.IGNORECASE`); the argument
must be given lowercased. -/
def rChCI (c : Nat) : Rx := rCl (fun a => lowC a = c)

/-- Literal character, exact case. -/
def rCh (c : Nat) : Rx := rCl (fun a => a = c)

/-- Sequencing; alternatives of the left factor are major. -/
def rSeq (p q : Rx) : Rx := fun l =>
  (p l).flatMap (fun pr => (q pr.2).map (fun qr => (pr.1 ++ qr.1, qr.2)))

/-- Ordered alternation `p|q`. -/
def rAlt (p q : Rx) : Rx := fun l => p l ++ q l

/-- Ordered alternation over a list of branches. -/
def rAlts (ps : List Rx) : Rx := fun l => ps.flatMap (fun p => p l)

/-- Greedy option `p?`. -/
def rOpt (p : Rx) : Rx := rAlt p rEps

/-- Case-insensitive literal string. -/
def rLitCI : Txt → Rx
  | [] => rEps
  | c :: rest => rSeq (rChCI (lowC c)) (rLitCI rest)

/-- Exact-case literal string. -/
def rLit : Txt → Rx
  | [] => rEps
  | c :: rest => rSeq (rCh c) (rLit rest)

/-- Capturing group: prepends the consumed text to the capture list. -/
def rGroup (p : Rx) : Rx := fun l =>
  (p l).map (fun pr => (l.take (l.length - pr.2.length) :: pr.1, pr.2))

/-- Greedy optional non-capturing group `(?:...)?` containing `n`
capturing groups: when the group does not participate, Python `findall`
reports `''` for each inner group. -/
def rOptIn (p : Rx) (n : Nat) : Rx := rAlt p (fun l => [(List.replicate n [], l)])

/-- The drops of `l` at each count in `ks`, as capture-free results. -/
def rDrops (l : Txt) (ks : List Nat) : List (RCaps × Txt) :=
  ks.map (fun k => ([], l.drop k))

/-- `n :: n-1 :: ... :: 0`. -/
def descRange : Nat → List Nat
  | 0 => [0]
  | n + 1 => (n + 1) :: descRange n

/-- Greedy star over a character class (`[..]*`): longest run first. -/
def rClStarG (f : Nat → Bool) : Rx := fun l =>
  rDrops l (descRange (l.takeWhile f).length)

/-- Greedy plus over a character class (`[..]+`). -/
def rClPlusG (f : Nat → Bool) : Rx := fun l =>
  rDrops l ((descRange (l.takeWhile f).length).dropLast)

/-- Lazy star over a character class (`[..]*?`): shortest first. -/
def rClStarL (f : Nat → Bool) : Rx := fun l =>
  rDrops l (List.range ((l.takeWhile f).length + 1))

/-- Lazy plus over a character class (`[..]+?`). -/
def rClPlusL (f : Nat → Bool) : Rx := fun l =>
  rDrops l ((List.range ((l.takeWhile f).length + 1)).drop 1)

/-- Greedy counted repetition `[..]{lo,hi}` of a character class. -/
def rClBetween (f : Nat → Bool) (lo hi : Nat) : Rx := fun l =>
  let n := min (l.takeWhile f).length hi
  if n < lo then [] else rDrops l ((descRange n).filter (fun k => lo ≤ k))

/-- Fuelled greedy star of an arbitrary pattern: more iterations first;
an iteration must consume input (Python `re` does not repeat an empty
match). -/
def rStarGF (p : Rx) : Nat → Rx
  | 0 => fun l => [([], l)]
  | fuel + 1 => fun l =>
      (((p l).filter (fun pr => pr.2.length < l.length)).flatMap
        (fun pr => (rStarGF p fuel pr.2).map (fun qr => (pr.1 ++ qr.1, qr.2))))
      ++ [([], l)]

/-- Greedy star `(?:..)*`. -/
def rStarG (p : Rx) : Rx := fun l => rStarGF p l.length l

/-- Greedy plus `(?:..)+`. -/
def rPlusG (p : Rx) : Rx := rSeq p (rStarG p)

/-- End of input (`$` without `re.MULTILINE`: end, or just before a
single final newline). -/
def rEnd : Rx := fun l =>
  match l with
  | [] => [([], l)]
  | [c] => if c = 10 then [([], [c])] else []
  | _ => []

/-- `$` under `re.MULTILINE`: end of input or before a newline. -/
def rEndML : Rx := fun l =>
  match l with
  | [] => [([], l)]
  | c :: rest => if c = 10 then [([], c :: rest)] else []

/-- Word boundary after a word character (`\b` where the previous
character is known to be a word character): next char not a word char. -/
def rWB : Rx := fun l =>
  match l with
  | [] => [([], l)]
  | c :: rest => if isWordC c then [] else [([], c :: rest)]

/-! ## Searching, matching and substitution drivers -/

/-- `re.search` / first `re.findall` hit: leftmost match, backtracking
priority within a position; returns the captures. -/
def reFirst (p : Rx) : Txt → Option RCaps
  | [] =>
    (match p [] with
     | r :: _ => some r.1
     | [] => none)
  | c :: t =>
    (match p (c :: t) with
     | r :: _ => some r.1
     | [] => reFirst p t)

/-- `re.match`: match only at the start. -/
def reMatch (p : Rx) (l : Txt) : Option RCaps :=
  match p l with
  | r :: _ => some r.1
  | [] => none

/-- Fuelled `re.findall`: all non-overlapping matches left to right. -/
def reAllF (p : Rx) : Nat → Txt → List RCaps
  | 0, _ => []
  | _ + 1, [] =>
    (match p [] with
     | (caps, _) :: _ => [caps]
     | [] => [])
  | fuel + 1, c :: t =>
    (match p (c :: t) with
     | (caps, rem) :: _ =>
       if rem.length < (c :: t).length then caps :: reAllF p fuel rem
       else caps :: reAllF p fuel t
     | [] => reAllF p fuel t)

/-- `re.findall`. -/
def reAll (p : Rx) (l : Txt) : List RCaps := reAllF p (l.length + 1) l

/-- Fuelled `re.sub(pattern, repl, s)`: replace every non-overlapping
match (our patterns always consume at least one character). -/
def reSubAllF (p : Rx) (repl : Txt) : Nat → Txt → Txt
  | 0, l => l
  | _ + 1, [] => []
  | fuel + 1, c :: t =>
    (match p (c :: t) with
     | (_, rem) :: _ =>
       if rem.length < (c :: t).length then repl ++ reSubAllF p repl fuel rem
       else c :: reSubAllF p repl fuel t
     | [] => c :: reSubAllF p repl fuel t)

/-- `re.sub`. -/
def reSubAll (p : Rx) (repl l : Txt) : Txt :=
  reSubAllF p repl (l.length + 1) l

/-- Skip to just past the next newline and try the pattern there
(helper for the `re.MULTILINE` drivers below). -/
def reFirstLSAux (p : Rx) : Txt → Option RCaps
  | [] => none
  | c :: t =>
    if c = 10 then
      match p t with
      | r :: _ => some r.1
      | [] => reFirstLSAux p t
    else reFirstLSAux p t

/-- `re.search` under `re.MULTILINE` for a `^`-anchored pattern: try
only at the start of each line. -/
def reFirstLS (p : Rx) (l : Txt) : Option RCaps :=
  match p l with
  | r :: _ => some r.1
  | [] => reFirstLSAux p l

def reAllLSAux (p : Rx) : Txt → List RCaps
  | [] => []
  | c :: t =>
    if c = 10 then
      match p t with
      | r :: _ => r.1 :: reAllLSAux p t
      | [] => reAllLSAux p t
    else reAllLSAux p t

/-- `re.findall` under `re.MULTILINE` for a `^`-anchored pattern:
collect a match attempt at the start of each line. -/
def reAllLS (p : Rx) (l : Txt) : List RCaps :=
  (match p l with
   | r :: _ => [r.1]
   | [] => []) ++ reAllLSAux p l

/-! # Text cleaning (`re.sub` preprocessing shared by the extractors) -/

/-- `<[^>]+>`. -/
def rxTag : Rx := rSeq (rCh '<'.cp) (rSeq (rClPlusG (fun c => c ≠ '>'.cp)) (rCh '>'.cp))

/-- `re.sub(r'<[^>]+>', '', text)`. -/
def stripTags (l : Txt) : Txt := reSubAll rxTag [] l

/-- `re.sub(r'\s+', ' ', text)`. -/
def collapseWs (l : Txt) : Txt := reSubAll (rClPlusG isWsC) [32] l

/-- The cleaning done at the top of `extract_salary` and in
`extract_from_content`: strip HTML tags, collapse whitespace. -/
def cleanText (jd : Txt) : Txt := collapseWs (stripTags jd)

/-! # Salary patterns (`JobParser.extract_salary`)

Each entry of the source's `salary_patterns` list is transcribed as a
combinator pattern plus the three properties of the raw pattern string
that `_format_salary_match` tests with Python's substring operator:
`'[kK]' in pattern`, `'/hour' in pattern or '/hr' in pattern`, and
`'%' in pattern`.  (The hourly flag is `false` for every pattern in the
source: the literal substrings `/hour` and `/hr` do not occur in
`(?:/|\s+per\s+)(?:hour|hr)`, so the hourly formatting branch never
fires.) -/

/-- The dash class `[-–—]` used in range separators
(hyphen, en dash, em dash). -/
def isDashC (c : Nat) : Bool := c = '-'.cp || c = '–'.cp || c = '—'.cp

def rDash : Rx := rCl isDashC

/-- `\s*`. -/
def rWs0 : Rx := rClStarG isWsC

/-- `\s+`. -/
def rWs1 : Rx := rClPlusG isWsC

/-- `(?:[-–—]|to)`. -/
def rSepDashTo : Rx := rAlt rDash (rLitCI "to".tx)

/-- `(\d{2,3})`. -/
def rD23 : Rx := rGroup (rClBetween isDigitC 2 3)

/-- `\d{1,3}(?:,\d{3})+` (uncaptured). -/
def rNumCommaPlusRaw : Rx :=
  rSeq (rClBetween isDigitC 1 3) (rPlusG (rSeq (rCh ','.cp) (rClBetween isDigitC 3 3)))

/-- `(\d{1,3}(?:,\d{3})+)`. -/
def rNumCommaPlus : Rx := rGroup rNumCommaPlusRaw

/-- `(\d{1,3}(?:,\d{3})*)`. -/
def rNumCommaStar : Rx :=
  rGroup (rSeq (rClBetween isDigitC 1 3) (rStarG (rSeq (rCh ','.cp) (rClBetween isDigitC 3 3))))

/-- `[kK]` (the class is case-insensitive by itself). -/
def rKK : Rx := rChCI 'k'.cp

/-- `(?:up to|base of|starting at|base salary|salary of)`. -/
def rLeadIn : Rx :=
  rAlts [rLitCI "up to".tx, rLitCI "base of".tx, rLitCI "starting at".tx,
         rLitCI "base salary".tx, rLitCI "salary of".tx]

/-- `(?:\s+(?:base|annually|per year))`. -/
def rQualifier : Rx :=
  rSeq rWs1 (rAlts [rLitCI "base".tx, rLitCI "annually".tx, rLitCI "per year".tx])

/-- `(?:/|\s+per\s+)(?:hour|hr)\b`. -/
def rHourSuffix : Rx :=
  rSeq (rAlt (rCh '/'.cp) (rSeq rWs1 (rSeq (rLitCI "per".tx) rWs1)))
       (rSeq (rAlt (rLitCI "hour".tx) (rLitCI "hr".tx)) rWB)

/-- A `salary_patterns` entry with the substring properties of its raw
pattern string used by `_format_salary_match`. -/
structure SalPat where
  rx : Rx
  hasKK : Bool
  hasHourly : Bool
  hasPct : Bool

/-- `r'\$(\d{2,3})[kK]?\s*(?:[-–—]|to)\s*\$?(\d{2,3})[kK]\b'`. -/
def salPat1 : SalPat :=
  ⟨rSeq (rCh '$'.cp) (rSeq rD23 (rSeq (rOpt rKK) (rSeq rWs0 (rSeq rSepDashTo
     (rSeq rWs0 (rSeq (rOpt (rCh '$'.cp)) (rSeq rD23 (rSeq rKK rWB)))))))),
   true, false, false⟩

/-- `r'\$(\d{1,3}(?:,\d{3})+)\s*(?:[-–—]|to)\s*\$?(\d{1,3}(?:,\d{3})+)'`. -/
def salPat2 : SalPat :=
  ⟨rSeq (rCh '$'.cp) (rSeq rNumCommaPlus (rSeq rWs0 (rSeq rSepDashTo
     (rSeq rWs0 (rSeq (rOpt (rCh '$'.cp)) rNumCommaPlus))))),
   false, false, false⟩

/-- `r'\$(\d{1,3}(?:,\d{3})*)[kK]?\s*(?:[-–—]|to)\s*\$?(\d{1,3}(?:,\d{3})*)[kK]?'`. -/
def salPat3 : SalPat :=
  ⟨rSeq (rCh '$'.cp) (rSeq rNumCommaStar (rSeq (rOpt rKK) (rSeq rWs0 (rSeq rSepDashTo
     (rSeq rWs0 (rSeq (rOpt (rCh '$'.cp)) (rSeq rNumCommaStar (rOpt rKK)))))))),
   true, false, false⟩

/-- `r'(?:up to|base of|starting at|base salary|salary of)\s+\$(\d{2,3})[kK]\+?(?:\s+(?:base|annually|per year))?'`. -/
def salPat4 : SalPat :=
  ⟨rSeq rLeadIn (rSeq rWs1 (rSeq (rCh '$'.cp) (rSeq rD23 (rSeq rKK
     (rSeq (rOpt (rCh '+'.cp)) (rOpt rQualifier)))))),
   true, false, false⟩

/-- `r'\$(\d{2,3})[kK]\+?(?:\s+(?:base|annually|per year))'`. -/
def salPat5 : SalPat :=
  ⟨rSeq (rCh '$'.cp) (rSeq rD23 (rSeq rKK (rSeq (rOpt (rCh '+'.cp)) rQualifier))),
   true, false, false⟩

/-- `r'\$(\d{2,3})[kK]\b'`. -/
def salPat6 : SalPat :=
  ⟨rSeq (rCh '$'.cp) (rSeq rD23 (rSeq rKK rWB)), true, false, false⟩

/-- `r'(?:up to|base of|starting at|base salary|salary of)\s+\$(\d{1,3}(?:,\d{3})+)\+?(?:\s+(?:base|annually|per year))?'`. -/
def salPat7 : SalPat :=
  ⟨rSeq rLeadIn (rSeq rWs1 (rSeq (rCh '$'.cp) (rSeq rNumCommaPlus
     (rSeq (rOpt (rCh '+'.cp)) (rOpt rQualifier))))),
   false, false, false⟩

/-- `r'\$(\d{1,3}(?:,\d{3})+)\+?(?:\s+(?:base|annually|per year))?'`. -/
def salPat8 : SalPat :=
  ⟨rSeq (rCh '$'.cp) (rSeq rNumCommaPlus (rSeq (rOpt (rCh '+'.cp)) (rOpt rQualifier))),
   false, false, false⟩

/-- `r'\$(\d{2,3})\s*(?:/|\s+per\s+)(?:hour|hr)\b'` — note that the raw
pattern string contains neither `/hour` nor `/hr` as a substring. -/
def salPat9 : SalPat :=
  ⟨rSeq (rCh '$'.cp) (rSeq rD23 (rSeq rWs0 rHourSuffix)), false, false, false⟩

/-- `r'\$(\d{2,3})\s*[-–—]\s*\$?(\d{2,3})\s*(?:/|\s+per\s+)(?:hour|hr)\b'`. -/
def salPat10 : SalPat :=
  ⟨rSeq (rCh '$'.cp) (rSeq rD23 (rSeq rWs0 (rSeq rDash (rSeq rWs0
     (rSeq (rOpt (rCh '$'.cp)) (rSeq rD23 (rSeq rWs0 rHourSuffix))))))),
   false, false, false⟩

/-- `r'(\d{2,3})[kK]?\s*(?:[-–—]|to)\s*(\d{2,3})[kK](?:\s+(?:annually|per year))?'`. -/
def salPat11 : SalPat :=
  ⟨rSeq rD23 (rSeq (rOpt rKK) (rSeq rWs0 (rSeq rSepDashTo (rSeq rWs0
     (rSeq rD23 (rSeq rKK (rOpt (rSeq rWs1
       (rAlt (rLitCI "annually".tx) (rLitCI "per year".tx)))))))))),
   true, false, false⟩

/-- `r'(\d+\.?\d*)%\s*(?:equity|stock|options)'`. -/
def salPat12 : SalPat :=
  ⟨rSeq (rGroup (rSeq (rClPlusG isDigitC) (rSeq (rOpt (rCh '.'.cp)) (rClStarG isDigitC))))
     (rSeq (rCh '%'.cp) (rSeq rWs0
       (rAlts [rLitCI "equity".tx, rLitCI "stock".tx, rLitCI "options".tx]))),
   false, false, true⟩

/-- `r'(?:total compensation|tc|package|total cash compensation):\s*\$?(\d{1,3}(?:[,k]\d{3})*)[k]?'`
— the `[,k]`/`[k]` classes are lowercase, so `'[kK]' in pattern` is false. -/
def salPat13 : SalPat :=
  ⟨rSeq (rAlts [rLitCI "total compensation".tx, rLitCI "tc".tx,
                rLitCI "package".tx, rLitCI "total cash compensation".tx])
     (rSeq (rCh ':'.cp) (rSeq rWs0 (rSeq (rOpt (rCh '$'.cp))
       (rSeq (rGroup (rSeq (rClBetween isDigitC 1 3)
          (rStarG (rSeq (rCl (fun c => c = ','.cp || lowC c = 'k'.cp))
                        (rClBetween isDigitC 3 3)))))
         (rOpt (rChCI 'k'.cp)))))),
   false, false, false⟩

/-- `r'(?:estimated|expected)\s+(?:total\s+)?(?:cash\s+)?compensation.*?\$(\d{1,3}(?:,\d{3})+)(?:\s*[-–—]\s*\$?(\d{1,3}(?:,\d{3})+))?'`. -/
def salPat14 : SalPat :=
  ⟨rSeq (rAlt (rLitCI "estimated".tx) (rLitCI "expected".tx))
     (rSeq rWs1 (rSeq (rOpt (rSeq (rLitCI "total".tx) rWs1))
       (rSeq (rOpt (rSeq (rLitCI "cash".tx) rWs1))
         (rSeq (rLitCI "compensation".tx)
           (rSeq (rClStarL (fun c => c ≠ 10))
             (rSeq (rCh '$'.cp) (rSeq rNumCommaPlus
               (rOptIn (rSeq rWs0 (rSeq rDash (rSeq rWs0 (rSeq (rOpt (rCh '$'.cp))
                  rNumCommaPlus)))) 1)))))))),
   false, false, false⟩

/-- The ordered `salary_patterns` list. -/
def salPats : List SalPat :=
  [salPat1, salPat2, salPat3, salPat4, salPat5, salPat6, salPat7,
   salPat8, salPat9, salPat10, salPat11, salPat12, salPat13, salPat14]

/-! # Salary value parsing and match formatting -/

/-- `JobParser._parse_salary_value`: strip everything but digits, commas
and `k`/`K`; a trailing `k` multiplies by 1000; `int()` failure (empty or
stray `k` inside) gives `none`. -/
def parseSalaryValue (value : Txt) : Option Nat :=
  let cleaned := value.filter (fun c => isDigitC c || c = ','.cp || lowC c = 'k'.cp)
  if (lowerL cleaned).getLast? = some 'k'.cp then
    (natOfDigits? (cleaned.dropLast.filter (fun c => c ≠ ','.cp))).map (· * 1000)
  else
    natOfDigits? (cleaned.filter (fun c => c ≠ ','.cp))

/-- The argument `_format_salary_match` feeds `_parse_salary_value` for
one side of a K-style range: append `'k'` unless the capture already
ends in `k`/`K` or contains a comma. -/
def kRangeArg (v : Txt) : Txt :=
  if !(v.getLast? = some 'k'.cp) && !(v.getLast? = some 'K'.cp) && !(v.contains ','.cp) then
    v ++ ['k'.cp]
  else v

/-- `JobParser._format_salary_match`.  `caps` is the `findall` tuple
(a single capture is a one-element list); the three booleans are the
pattern-string substring tests.  Python's `if low_val and high_val:` and
`if parsed_val:` treat the integer 0 as falsy. -/
def formatSalaryMatch (hasKK hasHourly hasPct : Bool) (caps : RCaps) :
    Option Txt :=
  match caps with
  | [low, high] =>
    if truthyS high then
      let lowVal := if hasKK then parseSalaryValue (kRangeArg low)
                    else parseSalaryValue low
      let highVal := if hasKK then parseSalaryValue (kRangeArg high)
                     else parseSalaryValue high
      match lowVal, highVal with
      | some lv, some hv =>
        if lv ≠ 0 && hv ≠ 0 then
          some ('$'.cp :: commaFmt lv ++ " - $".tx ++ commaFmt hv)
        else none
      | _, _ => none
    else formatSingle low
  | [value] => formatSingle value
  | _ => none
where
  /-- The `elif len(match) >= 1` single-value branch. -/
  formatSingle (value : Txt) : Option Txt :=
    if hasHourly then some ('$'.cp :: value ++ "/hour".tx)
    else if hasPct then some (value ++ "% equity".tx)
    else
      match (if hasKK then parseSalaryValue (value ++ ['k'.cp])
             else parseSalaryValue value) with
      | some v => if v ≠ 0 then some ('$'.cp :: commaFmt v) else none
      | none => none

/-- One pass of the `for pattern in salary_patterns` loop: first
`findall` hit of each pattern in order, formatted; a falsy formatting
result falls through to the next pattern. -/
def firstPatternHit : List SalPat → Txt → Option Txt
  | [], _ => none
  | p :: rest, clean =>
    match reFirst p.rx clean with
    | some caps =>
      match formatSalaryMatch p.hasKK p.hasHourly p.hasPct caps with
      | some s => if truthyS s then some s else firstPatternHit rest clean
      | none => firstPatternHit rest clean
    | none => firstPatternHit rest clean

/-! # Contextual keyword pass -/

/-- `context_patterns` of `_extract_salary_from_context` with the
pattern-string properties of each. -/
def ctxPats : List SalPat :=
  [ -- r'\$(\d{2,3})[kK]\s*(?:[-–—]|to)\s*\$?(\d{2,3})[kK]'
    ⟨rSeq (rCh '$'.cp) (rSeq rD23 (rSeq rKK (rSeq rWs0 (rSeq rSepDashTo
       (rSeq rWs0 (rSeq (rOpt (rCh '$'.cp)) (rSeq rD23 rKK))))))),
     true, false, false⟩,
    -- r'\$(\d{1,3}(?:,\d{3})+)\s*(?:[-–—]|to)\s*\$?(\d{1,3}(?:,\d{3})+)'
    ⟨rSeq (rCh '$'.cp) (rSeq rNumCommaPlus (rSeq rWs0 (rSeq rSepDashTo
       (rSeq rWs0 (rSeq (rOpt (rCh '$'.cp)) rNumCommaPlus))))),
     false, false, false⟩,
    -- r'\$(\d{2,3})[kK]'
    ⟨rSeq (rCh '$'.cp) (rSeq rD23 rKK), true, false, false⟩,
    -- r'\$(\d{1,3}(?:,\d{3})+)'
    ⟨rSeq (rCh '$'.cp) rNumCommaPlus, false, false, false⟩ ]

/-- `JobParser._extract_salary_from_context`. -/
def extractSalaryFromContext (context : Txt) : Option Txt :=
  firstPatternHit ctxPats context

/-- The `salary_keywords` list. -/
def salaryKeywords : List Txt :=
  ["compensation".tx, "salary".tx, "pay".tx, "wage".tx,
   "remuneration".tx, "package".tx, "total comp".tx, "base pay".tx,
   "annual salary".tx]

/-- `rf'{keyword}[:\s]+([^\n.!?]+)'`. -/
def kwRx (kw : Txt) : Rx :=
  rSeq (rLitCI kw)
    (rSeq (rClPlusG (fun c => c = ':'.cp || isWsC c))
      (rGroup (rClPlusG (fun c => !(c = 10 || c = '.'.cp || c = '!'.cp || c = '?'.cp)))))

/-- The inner `for keyword_match in keyword_matches` loop. -/
def contextLoop : List RCaps → Option Txt
  | [] => none
  | caps :: rest =>
    match extractSalaryFromContext (caps.headD []) with
    | some s => if truthyS s then some s else contextLoop rest
    | none => contextLoop rest

/-- The `for keyword in salary_keywords` loop. -/
def keywordPass : List Txt → Txt → Option Txt
  | [], _ => none
  | kw :: rest, clean =>
    match contextLoop (reAll (kwRx kw) clean) with
    | some s => some s
    | none => keywordPass rest clean

/-- `JobParser.extract_salary`. -/
def extract_salary (jd : Txt) : Txt :=
  if !truthyS jd then "TBD".tx
  else
    let clean := cleanText jd
    match firstPatternHit salPats clean with
    | some s => s
    | none =>
      match keywordPass salaryKeywords clean with
      | some s => s
      | none => "TBD".tx

/-! # URL handling (`urllib.parse` models and `extract_from_url`) -/

/-- Split at the first exact occurrence of `pat`: `(before, after)`. -/
def splitOnSub? (hay pat : Txt) : Option (Txt × Txt) :=
  if hasPre pat hay then some ([], hay.drop pat.length)
  else
    match hay with
    | [] => none
    | c :: t =>
      match splitOnSub? t pat with
      | some (b, a) => some (c :: b, a)
      | none => none

/-- `urlparse` result (fields the parser uses). -/
structure UrlParts where
  scheme : Txt
  netloc : Txt
  path : Txt
  query : Txt

/-- Model of `urllib.parse.urlparse` for the absolute-URL shapes the
parser handles: `scheme://netloc/path?query#fragment` (scheme
lowercased, as Python does); without `://` the whole input is the path
and the netloc is empty. -/
def urlparseT (u : Txt) : UrlParts :=
  match splitOnSub? u "://".tx with
  | some (sch, rest) =>
    let netloc := rest.takeWhile (fun c => !(c = '/'.cp || c = '?'.cp || c = '#'.cp))
    let rest2 := rest.drop netloc.length
    let path := rest2.takeWhile (fun c => !(c = '?'.cp || c = '#'.cp))
    let rest3 := rest2.drop path.length
    let query :=
      match rest3 with
      | q :: qs => if q = '?'.cp then qs.takeWhile (fun c => c ≠ '#'.cp) else []
      | [] => []
    ⟨lowerL sch, netloc, path, query⟩
  | none =>
    let path := u.takeWhile (fun c => !(c = '?'.cp || c = '#'.cp))
    let rest3 := u.drop path.length
    let query :=
      match rest3 with
      | q :: qs => if q = '?'.cp then qs.takeWhile (fun c => c ≠ '#'.cp) else []
      | [] => []
    ⟨[], [], path, query⟩

/-- Hexadecimal digit value. -/
def hexVal? (c : Nat) : Option Nat :=
  if 48 ≤ c && c ≤ 57 then some (c - 48)
  else if 97 ≤ c && c ≤ 102 then some (c - 87)
  else if 65 ≤ c && c ≤ 70 then some (c - 55)
  else none

/-- Model of `urllib.parse.unquote`: decode `%XX` escapes (single-byte
model of the percent encoding the job URLs use). -/
def unquoteT : Txt → Txt
  | [] => []
  | 37 :: a :: b :: rest =>
    (match hexVal? a, hexVal? b with
     | some x, some y => (16 * x + y) :: unquoteT rest
     | _, _ => 37 :: unquoteT (a :: b :: rest))
  | c :: rest => c :: unquoteT rest

/-- Split a list on a separator character. -/
def splitOnC (sep : Nat) : Txt → List Txt
  | [] => [[]]
  | c :: rest =>
    let r := splitOnC sep rest
    if c = sep then [] :: r
    else
      match r with
      | h :: t => (c :: h) :: t
      | [] => [[c]]

/-- `unquote_plus` on one query component. -/
def unquotePlusT (l : Txt) : Txt := unquoteT (replCharL '+'.cp 32 l)

/-- Model of `urllib.parse.parse_qs`: split the query on `&`, keep only
`key=value` components with nonempty values, decode both sides, group
values under their key in first-occurrence order. -/
def qsPairs (query : Txt) : List (Txt × Txt) :=
  ((splitOnC '&'.cp query).filterMap (fun comp =>
    match splitOnSub? comp "=".tx with
    | some (k, v) => if truthyS v then some (unquotePlusT k, unquotePlusT v) else none
    | none => none))

/-- Group query pairs by key, preserving first-occurrence order
(fuelled structural recursion; the fuel bounds the pair count). -/
def groupPairsF : Nat → List (Txt × Txt) → List (Txt × List Txt)
  | 0, _ => []
  | _, [] => []
  | fuel + 1, (k, v) :: rest =>
    (k, v :: (rest.filter (fun p => p.1 = k)).map Prod.snd) ::
      groupPairsF fuel (rest.filter (fun p => p.1 ≠ k))

def groupPairs (l : List (Txt × Txt)) : List (Txt × List Txt) :=
  groupPairsF l.length l

def parseQS (query : Txt) : List (Txt × List Txt) := groupPairs (qsPairs query)

/-- The `COMPANY_DOMAINS` table. -/
def companyDomains : List (Txt × Txt) :=
  [("google.com".tx, "Google".tx), ("microsoft.com".tx, "Microsoft".tx),
   ("amazon.com".tx, "Amazon".tx), ("meta.com".tx, "Meta".tx),
   ("facebook.com".tx, "Meta".tx), ("apple.com".tx, "Apple".tx),
   ("netflix.com".tx, "Netflix".tx), ("tesla.com".tx, "Tesla".tx),
   ("uber.com".tx, "Uber".tx), ("airbnb.com".tx, "Airbnb".tx),
   ("linkedin.com".tx, "LinkedIn".tx), ("salesforce.com".tx, "Salesforce".tx),
   ("oracle.com".tx, "Oracle".tx), ("ibm.com".tx, "IBM".tx),
   ("intel.com".tx, "Intel".tx), ("nvidia.com".tx, "NVIDIA".tx),
   ("adobe.com".tx, "Adobe".tx), ("stripe.com".tx, "Stripe".tx),
   ("github.com".tx, "GitHub".tx), ("gitlab.com".tx, "GitLab".tx),
   ("atlassian.com".tx, "Atlassian".tx), ("shopify.com".tx, "Shopify".tx),
   ("zoom.us".tx, "Zoom".tx), ("slack.com".tx, "Slack".tx),
   ("twilio.com".tx, "Twilio".tx), ("palantir.com".tx, "Palantir".tx),
   ("databricks.com".tx, "Databricks".tx), ("snowflake.com".tx, "Snowflake".tx),
   ("confluent.io".tx, "Confluent".tx)]

/-- Exact-key lookup in the domain table. -/
def lookupDomain : List (Txt × Txt) → Txt → Option Txt
  | [], _ => none
  | (k, v) :: rest, d => if d = k then some v else lookupDomain rest d

/-- `JOB_BOARD_PATTERNS`: board key plus the `company_pattern` regex
(the table's `position_pattern` entries are never read by the code). -/
def jobBoards : List (Txt × Rx) :=
  [("greenhouse.io".tx,
    -- r'/jobs/(\d+)\?gh_jid=\d+'
    rSeq (rLitCI "/jobs/".tx) (rSeq (rGroup (rClPlusG isDigitC))
      (rSeq (rCh '?'.cp) (rSeq (rLitCI "gh_jid=".tx) (rClPlusG isDigitC))))),
   ("lever.co".tx,
    -- r'https://jobs\.lever\.co/([^/]+)'
    rSeq (rLitCI "https://jobs.lever.co/".tx) (rGroup (rClPlusG (fun c => c ≠ '/'.cp)))),
   ("workday.com".tx,
    -- r'/([^/]+)\.wd\d+\.myworkdayjobs\.com'
    rSeq (rCh '/'.cp) (rSeq (rGroup (rClPlusG (fun c => c ≠ '/'.cp)))
      (rSeq (rLitCI ".wd".tx) (rSeq (rClPlusG isDigitC) (rLitCI ".myworkdayjobs.com".tx))))),
   ("jobvite.com".tx,
    -- r'//hire\.jobvite\.com/([^/]+)'
    rSeq (rLitCI "//hire.jobvite.com/".tx) (rGroup (rClPlusG (fun c => c ≠ '/'.cp)))),
   ("bamboohr.com".tx,
    -- r'//([^.]+)\.bamboohr\.com'
    rSeq (rLitCI "//".tx) (rSeq (rGroup (rClPlusG (fun c => c ≠ '.'.cp)))
      (rLitCI ".bamboohr.com".tx))),
   ("ashbyhq.com".tx,
    -- r'/([^/]+)/[^/]+/application'
    rSeq (rCh '/'.cp) (rSeq (rGroup (rClPlusG (fun c => c ≠ '/'.cp)))
      (rSeq (rCh '/'.cp) (rSeq (rClPlusG (fun c => c ≠ '/'.cp))
        (rSeq (rCh '/'.cp) (rLitCI "application".tx)))))),
   ("ats.rippling.com".tx,
    -- r'/([^/-]+)-careers-page'
    rSeq (rCh '/'.cp) (rSeq (rGroup (rClPlusG (fun c => !(c = '/'.cp || c = '-'.cp))))
      (rLitCI "-careers-page".tx)))]

/-- `re.sub(r'^www\.', '', domain)` (case-sensitive, anchored). -/
def subWWW (domain : Txt) : Txt :=
  if hasPre "www.".tx domain then domain.drop 4 else domain

/-- `re.sub(r'(labs?|inc|corp|llc|ltd)$', '', name, flags=IGNORECASE)`. -/
def rxCorpTail : Rx :=
  rSeq (rAlts [rSeq (rLitCI "lab".tx) (rOpt (rChCI 's'.cp)), rLitCI "inc".tx,
               rLitCI "corp".tx, rLitCI "llc".tx, rLitCI "ltd".tx]) rEnd

/-- The job-board loop of `extract_from_url`: first board whose key
occurs in the domain and whose company pattern matches the URL. -/
def boardLoop (url domain : Txt) : List (Txt × Rx) → Option Txt
  | [] => none
  | (board, pat) :: rest =>
    if containsSub domain board then
      match reFirst pat url with
      | some caps =>
        let company := stripWsL (replCharL '_'.cp 32 (replCharL '-'.cp 32 (unquoteT (caps.headD []))))
        if lowerL company = "jasper".tx || lowerL company = "jasper ai".tx then
          some "Jasper".tx
        else some (titleCaseL company)
      | none => boardLoop url domain rest
    else boardLoop url domain rest

/-- `re.match(r'([^.]+)\.', domain)`: nonempty prefix before a dot. -/
def subdomainOf? (domain : Txt) : Option Txt :=
  match reMatch (rSeq (rGroup (rClPlusG (fun c => c ≠ '.'.cp))) (rCh '.'.cp)) domain with
  | some caps => some (caps.headD [])
  | none => none

/-- `JobParser.extract_from_url` (the second component of the Python
pair is always `None`). -/
def extract_from_url (url : Txt) : Option Txt × Option Txt :=
  let domain := subWWW (urlparseT (lowerL url)).netloc
  match lookupDomain companyDomains domain with
  | some name => (some name, none)
  | none =>
    match boardLoop url domain jobBoards with
    | some company => (some company, none)
    | none =>
      let viaSubdomain :=
        match subdomainOf? domain with
        | some sub =>
          if ["www".tx, "jobs".tx, "careers".tx, "hire".tx, "apply".tx, "ats".tx].contains sub then
            none
          else some (titleCaseL (replCharL '-'.cp 32 sub))
        | none => none
      match viaSubdomain with
      | some c => (some c, none)
      | none =>
        let parts := splitOnC '.'.cp domain
        if 2 ≤ parts.length then
          let companyName := (parts.reverse.drop 1).headD []
          if companyName = "toasttab".tx then (some "Toast".tx, none)
          else
            let cleaned := stripWsL (reSubAll rxCorpTail [] companyName)
            if truthyS cleaned && 2 < cleaned.length then
              (some (titleCaseL (replCharL '-'.cp 32 cleaned)), none)
            else (none, none)
        else (none, none)

/-! # Title-tag parsing (`_parse_job_title`) and cleaning helpers -/

/-- `r'<title[^>]*>([^<]+)</title>'`. -/
def titleTagRx : Rx :=
  rSeq (rLitCI "<title".tx) (rSeq (rClStarG (fun c => c ≠ '>'.cp)) (rSeq (rCh '>'.cp)
    (rSeq (rGroup (rClPlusG (fun c => c ≠ '<'.cp))) (rLitCI "</title>".tx))))

/-- Any character except a newline (`.` without `re.DOTALL`). -/
def isDotC (c : Nat) : Bool := c ≠ 10

/-- Title pattern 0: `r'^([^-]+?)\s*[-–—]\s*(.+?)(?:\s*[-–—].*)?$'`. -/
def titleP0 : Rx :=
  rSeq (rGroup (rClPlusL (fun c => c ≠ '-'.cp)))
    (rSeq rWs0 (rSeq rDash (rSeq rWs0
      (rSeq (rGroup (rClPlusL isDotC))
        (rSeq (rOpt (rSeq rWs0 (rSeq rDash (rClStarG isDotC)))) rEnd)))))

/-- Title pattern 1: `r'^(.+?)\s+at\s+([^|]+?)(?:\s*[|].*)?$'`. -/
def titleP1 : Rx :=
  rSeq (rGroup (rClPlusL isDotC))
    (rSeq rWs1 (rSeq (rLitCI "at".tx) (rSeq rWs1
      (rSeq (rGroup (rClPlusL (fun c => c ≠ '|'.cp)))
        (rSeq (rOpt (rSeq rWs0 (rSeq (rCh '|'.cp) (rClStarG isDotC)))) rEnd)))))

/-- Title pattern 2: `r'^(.+?)\s*[|]\s*([^|]+?)(?:\s*[|].*)?$'`. -/
def titleP2 : Rx :=
  rSeq (rGroup (rClPlusL isDotC))
    (rSeq rWs0 (rSeq (rCh '|'.cp) (rSeq rWs0
      (rSeq (rGroup (rClPlusL (fun c => c ≠ '|'.cp)))
        (rSeq (rOpt (rSeq rWs0 (rSeq (rCh '|'.cp) (rClStarG isDotC)))) rEnd)))))

/-- Title pattern 3: `r'^([^:]+?):\s*(.+?)(?:\s*[-–—].*)?$'`. -/
def titleP3 : Rx :=
  rSeq (rGroup (rClPlusL (fun c => c ≠ ':'.cp)))
    (rSeq (rCh ':'.cp) (rSeq rWs0
      (rSeq (rGroup (rClPlusL isDotC))
        (rSeq (rOpt (rSeq rWs0 (rSeq rDash (rClStarG isDotC)))) rEnd))))

/-- The `location_indicators` list. -/
def locationIndicators : List Txt :=
  ["remote".tx, "onsite".tx, "hybrid".tx, "united states".tx, "usa".tx,
   "us".tx, "uk".tx, "canada".tx]

/-- `r'^[A-Za-z\s]+,\s*[A-Za-z\s]+$'` (the "City, Region" shape). -/
def locShapeRx : Rx :=
  rSeq (rClPlusG (fun c => isAlphaC c || isWsC c))
    (rSeq (rCh ','.cp) (rSeq rWs0 (rSeq (rClPlusG (fun c => isAlphaC c || isWsC c)) rEnd)))

/-- `r'\s*[-–—]\s*.*(?:jobs?|careers?|hiring|apply|remote|onsite).*$'`. -/
def cptRx1 : Rx :=
  rSeq rWs0 (rSeq rDash (rSeq rWs0 (rSeq (rClStarG isDotC)
    (rSeq (rAlts [rSeq (rLitCI "job".tx) (rOpt (rChCI 's'.cp)),
                  rSeq (rLitCI "career".tx) (rOpt (rChCI 's'.cp)),
                  rLitCI "hiring".tx, rLitCI "apply".tx,
                  rLitCI "remote".tx, rLitCI "onsite".tx])
      (rSeq (rClStarG isDotC) rEnd)))))

/-- `r'\s*[|]\s*.*(?:jobs?|careers?).*$'`. -/
def cptRx2 : Rx :=
  rSeq rWs0 (rSeq (rCh '|'.cp) (rSeq rWs0 (rSeq (rClStarG isDotC)
    (rSeq (rAlt (rSeq (rLitCI "job".tx) (rOpt (rChCI 's'.cp)))
                (rSeq (rLitCI "career".tx) (rOpt (rChCI 's'.cp))))
      (rSeq (rClStarG isDotC) rEnd)))))

/-- `JobParser._clean_position_title`. -/
def cleanPositionTitle (position : Txt) : Option Txt :=
  if !truthyS position then none
  else
    let p1 := reSubAll cptRx1 [] position
    let p2 := reSubAll cptRx2 [] p1
    let p := stripSetL " .,;:-".tx p2
    if 5 ≤ p.length && p.length ≤ 80 && !isDigitsL p then
      if p.any isAlphaC then some p else none
    else none

/-- `r'\s*(?:inc\.?|llc\.?|corp\.?|ltd\.?|co\.?)\s*$'`. -/
def ccnSuffixRx : Rx :=
  rSeq rWs0 (rSeq (rAlts [rSeq (rLitCI "inc".tx) (rOpt (rCh '.'.cp)),
                          rSeq (rLitCI "llc".tx) (rOpt (rCh '.'.cp)),
                          rSeq (rLitCI "corp".tx) (rOpt (rCh '.'.cp)),
                          rSeq (rLitCI "ltd".tx) (rOpt (rCh '.'.cp)),
                          rSeq (rLitCI "co".tx) (rOpt (rCh '.'.cp))])
    (rSeq rWs0 rEnd))

/-- `re.sub(r'^(?:the\s+)?', '', company, flags=IGNORECASE)`: drop a
leading `the` followed by whitespace. -/
def stripLeadingThe (company : Txt) : Txt :=
  if hasPreCI "the".tx company && isWsC ((company.drop 3).headD 0) then
    (company.drop 3).dropWhile isWsC
  else company

/-- The `false_positives` stop-word list. -/
def falsePositives : List Txt :=
  ["this".tx, "the".tx, "we".tx, "you".tx, "our".tx, "your".tx, "all".tx,
   "some".tx, "many".tx, "most".tx, "key".tx, "main".tx, "primary".tx,
   "current".tx, "new".tx, "next".tx, "first".tx, "last".tx,
   "position".tx, "role".tx, "job".tx, "career".tx, "opportunity".tx,
   "team".tx, "company".tx, "organization".tx, "department".tx,
   "division".tx, "group".tx, "candidate".tx, "applicant".tx,
   "engineering".tx, "software".tx, "technology".tx, "technical".tx,
   "senior".tx, "junior".tx, "full time".tx, "part time".tx,
   "remote".tx, "onsite".tx, "hybrid".tx]

/-- `JobParser._clean_company_name`. -/
def cleanCompanyName (company : Txt) : Option Txt :=
  if !truthyS company then none
  else
    let c1 := stripLeadingThe company
    let c2 := reSubAll ccnSuffixRx [] c1
    let c := stripSetL " .,;:-".tx c2
    if falsePositives.contains (lowerL c) then none
    else if 2 ≤ c.length && c.length ≤ 50 && !isDigitsL c then
      if c.any isAlphaC then some c else none
    else none

/-- `JobParser._parse_job_title`: the four title shapes are tried in
order on the stripped title, each updating the running
`(company, position)` state exactly as the source branch does, with an
early return as soon as both are truthy; then the URL fallback. -/
def parseJobTitle (titleContent : Txt) (url : Option Txt) : Option Txt × Option Txt :=
  let t := stripWsL titleContent
  let st0 : Option Txt × Option Txt := (none, none)
  -- pattern 0: "Company - Position" (or "Position - Location")
  let st1 :=
    match reMatch titleP0 t with
    | some caps =>
      let part1 := stripWsL (caps.headD [])
      let part2 := stripWsL ((caps.drop 1).headD [])
      let isLoc := locationIndicators.any (fun ind => containsSub (lowerL part2) ind)
                   || (reMatch locShapeRx part2).isSome
      if isLoc then
        let position := cleanPositionTitle part1
        let company := if truthyO url then (extract_from_url (getS url)).1 else st0.1
        (company, position)
      else (cleanCompanyName part1, cleanPositionTitle part2)
    | none => st0
  if truthyO st1.1 && truthyO st1.2 then st1
  else
    -- pattern 1: "Position at Company"
    let st2 :=
      match reMatch titleP1 t with
      | some caps =>
        let part1 := stripWsL (caps.headD [])
        let part2 := stripWsL ((caps.drop 1).headD [])
        (cleanCompanyName part2, cleanPositionTitle part1)
      | none => st1
    if truthyO st2.1 && truthyO st2.2 then st2
    else
      -- pattern 2: "Position | Company"
      let st3 :=
        match reMatch titleP2 t with
        | some caps =>
          let part1 := stripWsL (caps.headD [])
          let part2 := stripWsL ((caps.drop 1).headD [])
          (cleanCompanyName part2, cleanPositionTitle part1)
        | none => st2
      if truthyO st3.1 && truthyO st3.2 then st3
      else
        -- pattern 3: "Company: Position"
        let st4 :=
          match reMatch titleP3 t with
          | some caps =>
            let part1 := stripWsL (caps.headD [])
            let part2 := stripWsL ((caps.drop 1).headD [])
            (cleanCompanyName part1, cleanPositionTitle part2)
          | none => st3
        if truthyO st4.1 && truthyO st4.2 then st4
        else
          -- URL fallback when no shape yielded a company
          if truthyO url && !truthyO st4.1 then
            match (extract_from_url (getS url)).1 with
            | some uc =>
              if truthyS uc then (some uc, cleanPositionTitle titleContent)
              else st4
            | none => st4
          else st4

/-! # Body-text heuristics (`_extract_position_title`, `_extract_company_name`) -/

/-- The `POSITION_PATTERNS` literal list, in source order. -/
def positionLits : List Txt :=
  ["Senior Software Engineer".tx, "Software Engineer".tx, "Senior Engineer".tx,
   "Staff Engineer".tx, "Principal Engineer".tx, "Engineering Manager".tx,
   "Software Engineering Manager".tx, "Manager, Software Engineering".tx,
   "Senior Engineering Manager".tx, "Director of Engineering".tx,
   "VP of Engineering".tx, "CTO".tx, "Tech Lead".tx, "Technical Lead".tx,
   "Lead Software Engineer".tx,
   "Data Engineer".tx, "Senior Data Engineer".tx, "Data Engineering Manager".tx,
   "Staff Data Engineer".tx, "Principal Data Engineer".tx, "Data Scientist".tx,
   "Senior Data Scientist".tx, "Machine Learning Engineer".tx, "ML Engineer".tx,
   "Product Manager".tx, "Senior Product Manager".tx, "Principal Product Manager".tx,
   "Director of Product".tx, "VP of Product".tx,
   "DevOps Engineer".tx, "Site Reliability Engineer".tx, "SRE".tx,
   "Platform Engineer".tx, "Infrastructure Engineer".tx,
   "Frontend Engineer".tx, "Backend Engineer".tx, "Full Stack Engineer".tx,
   "Full-Stack Engineer".tx]

/-- The `for pattern in POSITION_PATTERNS` loop: first pattern with a
`findall` hit returns the first matched slice. -/
def positionLitLoop : List Txt → Txt → Option Txt
  | [], _ => none
  | lit :: rest, text =>
    match reFirst (rGroup (rLitCI lit)) text with
    | some caps => some (caps.headD [])
    | none => positionLitLoop rest text

/-- `[^.!?\n]`. -/
def isTitleBodyC (c : Nat) : Bool :=
  !(c = '.'.cp || c = '!'.cp || c = '?'.cp || c = 10)

/-- A `title_indicators` entry: the pattern plus whether it is
`^`-anchored (searched at line starts under `re.MULTILINE`). -/
structure IndPat where
  rx : Rx
  anchored : Bool

/-- The `title_indicators` list. -/
def titleIndicators : List IndPat :=
  [ -- r'^([^.!?\n]{10,60}(?:Engineer|Manager|Developer|Analyst|Scientist|Lead|Director|VP|CTO))'
    ⟨rGroup (rSeq (rClBetween isTitleBodyC 10 60)
       (rAlts [rLitCI "Engineer".tx, rLitCI "Manager".tx, rLitCI "Developer".tx,
               rLitCI "Analyst".tx, rLitCI "Scientist".tx, rLitCI "Lead".tx,
               rLitCI "Director".tx, rLitCI "VP".tx, rLitCI "CTO".tx])),
     true⟩,
    -- r'Position:\s*([^.!?\n]{5,60})'
    ⟨rSeq (rLitCI "Position:".tx) (rSeq rWs0 (rGroup (rClBetween isTitleBodyC 5 60))), false⟩,
    -- r'Role:\s*([^.!?\n]{5,60})'
    ⟨rSeq (rLitCI "Role:".tx) (rSeq rWs0 (rGroup (rClBetween isTitleBodyC 5 60))), false⟩,
    -- r'Job Title:\s*([^.!?\n]{5,60})'
    ⟨rSeq (rLitCI "Job Title:".tx) (rSeq rWs0 (rGroup (rClBetween isTitleBodyC 5 60))), false⟩,
    -- r'We are looking for (?:a|an)\s+([^.!?\n]{5,60}(?:Engineer|Manager|Developer|Analyst|Scientist))'
    ⟨rSeq (rLitCI "We are looking for ".tx)
       (rSeq (rAlt (rChCI 'a'.cp) (rLitCI "an".tx)) (rSeq rWs1
         (rGroup (rSeq (rClBetween isTitleBodyC 5 60)
           (rAlts [rLitCI "Engineer".tx, rLitCI "Manager".tx, rLitCI "Developer".tx,
                   rLitCI "Analyst".tx, rLitCI "Scientist".tx]))))), false⟩ ]

/-- The `for pattern in title_indicators` loop: `re.search` with
`re.IGNORECASE | re.MULTILINE`; a hit whose stripped capture fails the
5..60 length check falls through to the next pattern. -/
def indicatorLoop : List IndPat → Txt → Option Txt
  | [], _ => none
  | ip :: rest, text =>
    match (if ip.anchored then reFirstLS ip.rx text else reFirst ip.rx text) with
    | some caps =>
      let title := stripWsL (caps.headD [])
      if 5 ≤ title.length && title.length ≤ 60 then some title
      else indicatorLoop rest text
    | none => indicatorLoop rest text

/-- `JobParser._extract_position_title`. -/
def extractPositionTitle (text : Txt) : Option Txt :=
  match positionLitLoop positionLits text with
  | some m => some m
  | none => indicatorLoop titleIndicators text

/-- `[a-zA-Z0-9\s&.,()-]` (the company-name body class). -/
def isCompanyC (c : Nat) : Bool :=
  isAlphaC c || isDigitC c || isWsC c || c = '&'.cp || c = '.'.cp || c = ','.cp ||
  c = '('.cp || c = ')'.cp || c = '-'.cp

/-- A `company_patterns` entry: pattern plus whether it is `^`-anchored. -/
structure CompanyPat where
  rx : Rx
  anchored : Bool

/-- The `company_patterns` list ( `[A-Z]` and `[A-Za-z0-9]` are matched
case-insensitively because every `findall` call passes
`re.IGNORECASE`). -/
def companyPats : List CompanyPat :=
  [ -- r'(?:About|Join|At)\s+([A-Z][a-zA-Z0-9\s&.,()-]{2,40})(?:\s*[,.:]|\s*$)'
    ⟨rSeq (rAlts [rLitCI "About".tx, rLitCI "Join".tx, rLitCI "At".tx])
       (rSeq rWs1 (rSeq (rGroup (rSeq (rCl isAlphaC) (rClBetween isCompanyC 2 40)))
         (rAlt (rSeq rWs0 (rCl (fun c => c = ','.cp || c = '.'.cp || c = ':'.cp)))
               (rSeq rWs0 rEndML)))), false⟩,
    -- r'Company:\s*([A-Za-z0-9][a-zA-Z0-9\s&.,()-]{1,40})'
    ⟨rSeq (rLitCI "Company:".tx) (rSeq rWs0
       (rGroup (rSeq (rCl (fun c => isAlphaC c || isDigitC c)) (rClBetween isCompanyC 1 40)))), false⟩,
    -- r'Organization:\s*([A-Za-z0-9][a-zA-Z0-9\s&.,()-]{1,40})'
    ⟨rSeq (rLitCI "Organization:".tx) (rSeq rWs0
       (rGroup (rSeq (rCl (fun c => isAlphaC c || isDigitC c)) (rClBetween isCompanyC 1 40)))), false⟩,
    -- r'([A-Z][a-zA-Z0-9\s&.,()-]{2,40})\s+is\s+(?:looking for|seeking|hiring|a leading|an?)'
    ⟨rSeq (rGroup (rSeq (rCl isAlphaC) (rClBetween isCompanyC 2 40)))
       (rSeq rWs1 (rSeq (rLitCI "is".tx) (rSeq rWs1
         (rAlts [rLitCI "looking for".tx, rLitCI "seeking".tx, rLitCI "hiring".tx,
                 rLitCI "a leading".tx, rSeq (rChCI 'a'.cp) (rOpt (rChCI 'n'.cp))])))), false⟩,
    -- r'Join\s+(?:the\s+team\s+at\s+)?([A-Z][a-zA-Z0-9\s&.,()-]{2,40})'
    ⟨rSeq (rLitCI "Join".tx) (rSeq rWs1 (rSeq
       (rOpt (rSeq (rLitCI "the".tx) (rSeq rWs1 (rSeq (rLitCI "team".tx)
         (rSeq rWs1 (rSeq (rLitCI "at".tx) rWs1))))))
       (rGroup (rSeq (rCl isAlphaC) (rClBetween isCompanyC 2 40))))), false⟩,
    -- r'Work\s+(?:at|with)\s+([A-Z][a-zA-Z0-9\s&.,()-]{2,40})'
    ⟨rSeq (rLitCI "Work".tx) (rSeq rWs1 (rSeq (rAlt (rLitCI "at".tx) (rLitCI "with".tx))
       (rSeq rWs1 (rGroup (rSeq (rCl isAlphaC) (rClBetween isCompanyC 2 40)))))), false⟩,
    -- r'Apply\s+to\s+([A-Z][a-zA-Z0-9\s&.,()-]{2,40})'
    ⟨rSeq (rLitCI "Apply".tx) (rSeq rWs1 (rSeq (rLitCI "to".tx)
       (rSeq rWs1 (rGroup (rSeq (rCl isAlphaC) (rClBetween isCompanyC 2 40)))))), false⟩,
    -- r'Career\s+(?:opportunity\s+)?at\s+([A-Z][a-zA-Z0-9\s&.,()-]{2,40})'
    ⟨rSeq (rLitCI "Career".tx) (rSeq rWs1 (rSeq
       (rOpt (rSeq (rLitCI "opportunity".tx) rWs1))
       (rSeq (rLitCI "at".tx) (rSeq rWs1
         (rGroup (rSeq (rCl isAlphaC) (rClBetween isCompanyC 2 40))))))), false⟩,
    -- r'^([A-Z][a-zA-Z0-9\s&.,()-]{2,40})\s+(?:is|seeks|wants|needs)'
    ⟨rSeq (rGroup (rSeq (rCl isAlphaC) (rClBetween isCompanyC 2 40)))
       (rSeq rWs1 (rAlts [rLitCI "is".tx, rLitCI "seeks".tx, rLitCI "wants".tx,
                          rLitCI "needs".tx])), true⟩ ]

/-- `findall` for a company pattern: anchored patterns match at line
starts when `re.MULTILINE` is passed, only at the very start without. -/
def companyMatches (ml : Bool) (cp : CompanyPat) (text : Txt) : List RCaps :=
  if cp.anchored then
    if ml then reAllLS cp.rx text
    else
      match reMatch cp.rx text with
      | some caps => [caps]
      | none => []
  else reAll cp.rx text

/-- The inner `for match in matches` loop of `_extract_company_name`. -/
def companyMatchLoop : List RCaps → Option Txt
  | [] => none
  | caps :: rest =>
    match cleanCompanyName (stripWsL (caps.headD [])) with
    | some c => if truthyS c then some c else companyMatchLoop rest
    | none => companyMatchLoop rest

/-- One of the two `for pattern in company_patterns` loops. -/
def companyPatLoop (ml : Bool) : List CompanyPat → Txt → Option Txt
  | [], _ => none
  | cp :: rest, text =>
    match companyMatchLoop (companyMatches ml cp text) with
    | some c => some c
    | none => companyPatLoop ml rest text

/-- `JobParser._extract_company_name`: search the first 200 characters
with all patterns under `re.IGNORECASE | re.MULTILINE`, then the full
text with `company_patterns[1:]` under `re.IGNORECASE` only. -/
def extractCompanyName (text : Txt) : Option Txt :=
  match companyPatLoop true companyPats (text.take 200) with
  | some c => some c
  | none => companyPatLoop false (companyPats.drop 1) text

/-- `JobParser.extract_from_content`. -/
def extract_from_content (jd : Txt) (url : Option Txt) : Option Txt × Option Txt :=
  let (company0, position0) :=
    match reFirst titleTagRx jd with
    | some caps =>
      let titleContent := stripWsL (caps.headD [])
      let (tc, tp) := parseJobTitle titleContent url
      ((if truthyO tc then tc else none), (if truthyO tp then tp else none))
    | none => (none, none)
  let clean := cleanText jd
  let company1 := if truthyO company0 then company0 else extractCompanyName clean
  let position1 := if truthyO position0 then position0 else extractPositionTitle clean
  if (!truthyO company1 || !truthyO position1) && truthyO url then
    let (uc, up) := extract_from_url (getS url)
    ((if !truthyO company1 && truthyO uc then uc else company1),
     (if !truthyO position1 && truthyO up then up else position1))
  else (company1, position1)

/-! # Template selection (`select_resume_template`) -/

/-- `any(pattern in title for pattern in pats)`. -/
def anySub (title : Txt) (pats : List Txt) : Bool :=
  pats.any (fun p => containsSub title p)

/-- Rule 1 phrases (senior engineering management). -/
def tplSeniorMgr : List Txt :=
  ["senior engineering manager".tx, "senior eng manager".tx,
   "engineering director".tx, "director of engineering".tx,
   "vp engineering".tx, "head of engineering".tx,
   "senior director engineering".tx, "principal engineering manager".tx]

/-- Rule 2 phrases (data engineering management). -/
def tplDataMgr : List Txt :=
  ["data engineering manager".tx, "data eng manager".tx,
   "manager data engineering".tx, "manager, data engineer".tx,
   "manager, data engineering".tx, "head of data engineering".tx,
   "director data engineering".tx, "data platform manager".tx,
   "analytics engineering manager".tx, "data infrastructure manager".tx]

/-- Rule 3 phrases (general engineering management). -/
def tplEngMgr : List Txt :=
  ["engineering manager".tx, "eng manager".tx, "software engineering manager".tx,
   "software eng manager".tx, "team lead".tx, "tech lead manager".tx,
   "development manager".tx, "manager, software development".tx,
   "software development manager".tx, "manager software".tx,
   "technical manager".tx, "engineering lead".tx]

/-- Rule 3 compound keywords (paired with `manager`). -/
def tplMgrKey : List Txt :=
  ["software development".tx, "software engineering".tx, "engineering".tx,
   "development".tx]

/-- Rule 4 phrases (senior individual contributor). -/
def tplSeniorIC : List Txt :=
  ["senior software engineer".tx, "senior engineer".tx, "staff engineer".tx,
   "principal engineer".tx, "senior developer".tx, "lead engineer".tx,
   "senior data engineer".tx, "senior backend engineer".tx,
   "senior frontend engineer".tx, "senior full stack engineer".tx,
   "senior platform engineer".tx, "senior sre".tx,
   "senior devops engineer".tx, "senior software developer".tx]

/-- Rule 5 keywords (the default-to-IC rule). -/
def tplDefaultIC : List Txt :=
  ["software engineer".tx, "engineer".tx, "developer".tx, "programmer".tx,
   "data engineer".tx, "backend engineer".tx, "frontend engineer".tx,
   "full stack".tx, "platform engineer".tx, "devops".tx, "sre".tx]

/-- `JobParser.select_resume_template`. -/
def select_resume_template (position_title : Txt) : Option Txt :=
  if !truthyS position_title then none
  else
    let tl := lowerL position_title
    if anySub tl tplSeniorMgr then some "senior_engineering_manager".tx
    else if anySub tl tplDataMgr then some "data_engineering_manager".tx
    else if anySub tl tplEngMgr
            || (containsSub tl "manager".tx && anySub tl tplMgrKey) then
      some "engineering_manager".tx
    else if anySub tl tplSeniorIC then some "senior_software_engineer".tx
    else if anySub tl tplDefaultIC then some "senior_software_engineer".tx
    else none

/-! # Script-rendered ("SPA") page detection (`_is_spa_page`) -/

/-- The `spa_indicators` list (checked case-sensitively). -/
def spaIndicators : List Txt :=
  ["id=\"__nuxt\"".tx, "id=\"__next\"".tx, "data-reactroot".tx,
   "ng-app".tx, "data-ssr=\"false\"".tx, "vue-app".tx]

/-- Text after the first case-insensitive occurrence of `pat`, if any. -/
def afterSubCI? (hay pat : Txt) : Option Txt :=
  if hasPreCI pat hay then some (hay.drop pat.length)
  else
    match hay with
    | [] => none
    | _ :: t => afterSubCI? t pat

/-- Text before the first case-insensitive occurrence of `pat` (all of
`hay` when absent). -/
def beforeSubCI (hay pat : Txt) : Txt :=
  if hasPreCI pat hay then []
  else
    match hay with
    | [] => []
    | c :: t => c :: beforeSubCI t pat

/-- Model of BeautifulSoup `soup.find('body')` + `body.get_text()`:
the contents of the first `<body ...>` element (up to `</body` or the
end), with tags stripped; `none` when there is no body tag. -/
def bodyText? (html : Txt) : Option Txt :=
  match afterSubCI? html "<body".tx with
  | none => none
  | some afterOpen =>
    let content := (afterOpen.dropWhile (fun c => c ≠ '>'.cp)).drop 1
    some (stripTags (beforeSubCI content "</body".tx))

/-- `JobParser._is_spa_page`: a known framework-mount marker plus an
essentially empty body (stripped text under 200 characters). -/
def isSpaPage (html : Txt) : Bool :=
  if spaIndicators.any (fun ind => containsSub html ind) then
    match bodyText? html with
    | some bt => (stripWsL bt).length < 200
    | none => false
  else false

/-! # URL-path position extraction (`_extract_from_url_path`) -/

/-- The role keywords looked for in URL path segments. -/
def rolePathKeys : List Txt :=
  ["manager".tx, "engineer".tx, "developer".tx, "analyst".tx,
   "director".tx, "lead".tx]

/-- The `for part in path_parts` loop. -/
def urlPathLoop : List Txt → Option Txt
  | [] => none
  | part :: rest =>
    if rolePathKeys.any (fun kw => containsSub (lowerL part) kw) then
      some (titleCaseL (replCharL '-'.cp 32 part))
    else urlPathLoop rest

/-- `JobParser._extract_from_url_path`. -/
def extractFromUrlPath (url : Txt) : Option Txt :=
  let path := unquoteT (urlparseT url).path
  urlPathLoop ((splitOnC '/'.cp path).filter truthyS)

/-! # Embedded-JSON search and the network probe

`json.loads` and `requests.get` are third-party collaborators: they are
modeled as parameters (`JParse`, `Net`) of everything downstream.  A
`Net` result of `none` models a connection failure, timeout or non-200
status; a response's `json` field is `none` when `response.json()` would
raise. -/

/-- Parsed JSON values (shapes `_search_json_for_salary` inspects;
numbers, booleans and null are `jother` — the code ignores them). -/
inductive JValue where
  | jstr : Txt → JValue
  | jobj : List (Txt × JValue) → JValue
  | jarr : List JValue → JValue
  | jother : JValue
deriving Repr

/-- `isinstance(value, (dict, list))`. -/
def JValue.isContainer : JValue → Bool
  | .jobj _ => true
  | .jarr _ => true
  | _ => false

/-- The salary-related key fragments of `_search_json_for_salary`. -/
def jsalKeys : List Txt :=
  ["salary".tx, "compensation".tx, "pay".tx, "wage".tx, "base".tx]

/-- `JobParser._search_json_for_salary` with its `max_depth` fuel
(initially 3).  The three passes mirror the source: salary-keyed
entries first (strings through `extract_salary`, containers
recursively), then every nested container, then list items. -/
def searchJson : Nat → JValue → Option Txt
  | 0, _ => none
  | d + 1, v =>
    match v with
    | .jobj items =>
      match keyPass d items with
      | some s => some s
      | none => valuePass d items
    | .jarr xs => listPass d xs
    | _ => none
where
  keyPass (d : Nat) : List (Txt × JValue) → Option Txt
    | [] => none
    | (k, val) :: rest =>
      if jsalKeys.any (fun sk => containsSub (lowerL k) sk) then
        match val with
        | .jstr s =>
          let extracted := extract_salary s
          if truthyS extracted && extracted ≠ "TBD".tx then some extracted
          else keyPass d rest
        | .jobj _ | .jarr _ =>
          match searchJson d val with
          | some r => if truthyS r then some r else keyPass d rest
          | none => keyPass d rest
        | _ => keyPass d rest
      else keyPass d rest
  valuePass (d : Nat) : List (Txt × JValue) → Option Txt
    | [] => none
    | (_, val) :: rest =>
      if val.isContainer then
        match searchJson d val with
        | some r => if truthyS r then some r else valuePass d rest
        | none => valuePass d rest
      else valuePass d rest
  listPass (d : Nat) : List JValue → Option Txt
    | [] => none
    | item :: rest =>
      if item.isContainer then
        match searchJson d item with
        | some r => if truthyS r then some r else listPass d rest
        | none => listPass d rest
      else listPass d rest

/-- A `requests` response as the parser consumes it. -/
structure NetResp where
  json : Option JValue
  text : Txt

/-- The network: endpoint URL to optional 200-response. -/
abbrev Net := Txt → Option NetResp

/-- `json.loads` as an oracle: the parsed value of a JSON blob, `none`
when parsing raises. -/
abbrev JParse := Txt → Option JValue

/-- `r'/([A-F0-9]{32})/'` (case-sensitive). -/
def jobIdRx : Rx :=
  rSeq (rCh '/'.cp)
    (rSeq (rGroup (rClBetween (fun c => (65 ≤ c && c ≤ 70) || isDigitC c) 32 32))
      (rCh '/'.cp))

/-- The `for endpoint in api_endpoints` loop of `_try_api_endpoints`. -/
def epLoop (net : Net) : List Txt → Option Txt
  | [] => none
  | e :: rest =>
    match net e with
    | none => epLoop net rest
    | some resp =>
      match resp.json with
      | some data =>
        match searchJson 3 data with
        | some s => if truthyS s then some s else epLoop net rest
        | none => epLoop net rest
      | none =>
        let s := extract_salary resp.text
        if truthyS s && s ≠ "TBD".tx then some s else epLoop net rest

/-- `JobParser._try_api_endpoints`. -/
def tryApiEndpoints (net : Net) (jobUrl : Txt) : Option Txt :=
  match reFirst jobIdRx jobUrl with
  | none => none
  | some caps =>
    let jobId := caps.headD []
    let pu := urlparseT jobUrl
    let base := pu.scheme ++ "://".tx ++ pu.netloc
    epLoop net
      [base ++ "/api/jobs/".tx ++ jobId,
       base ++ "/api/job/".tx ++ jobId,
       base ++ "/api/job-details/".tx ++ jobId,
       base ++ "/api/positions/".tx ++ jobId,
       "https://api.dejobs.org/jobs/".tx ++ jobId,
       "https://api.dejobs.org/job/".tx ++ jobId]

/-! # SPA salary extension (`_extract_salary_from_spa`) -/

/-- `\{` (avoids a literal brace in the Lean source). -/
def obraceC : Nat := 123

/-- `\}`. -/
def cbraceC : Nat := 125

/-- The `json_patterns` list (compiled with
`re.IGNORECASE | re.DOTALL`, so `.` matches newlines too). -/
def spaJsonPats : List Rx :=
  [ -- r'window\.__INITIAL_STATE__\s*=\s*(\{.*?\});'
    rSeq (rLitCI "window.__initial_state__".tx) (rSeq rWs0 (rSeq (rCh '='.cp)
      (rSeq rWs0 (rSeq (rGroup (rSeq (rCh obraceC)
        (rSeq (rClStarL (fun _ => true)) (rCh cbraceC)))) (rCh ';'.cp))))),
    -- r'window\.__NUXT__\s*=\s*(\{.*?\});'
    rSeq (rLitCI "window.__nuxt__".tx) (rSeq rWs0 (rSeq (rCh '='.cp)
      (rSeq rWs0 (rSeq (rGroup (rSeq (rCh obraceC)
        (rSeq (rClStarL (fun _ => true)) (rCh cbraceC)))) (rCh ';'.cp))))),
    -- r'window\.__NEXT_DATA__\s*=\s*(\{.*?\});'
    rSeq (rLitCI "window.__next_data__".tx) (rSeq rWs0 (rSeq (rCh '='.cp)
      (rSeq rWs0 (rSeq (rGroup (rSeq (rCh obraceC)
        (rSeq (rClStarL (fun _ => true)) (rCh cbraceC)))) (rCh ';'.cp))))),
    -- r'data-nuxt-data="[^"]*"[^>]*>([^<]*)</script>'
    rSeq (rLitCI "data-nuxt-data=\"".tx) (rSeq (rClStarG (fun c => c ≠ '"'.cp))
      (rSeq (rCh '"'.cp) (rSeq (rClStarG (fun c => c ≠ '>'.cp)) (rSeq (rCh '>'.cp)
        (rSeq (rGroup (rClStarG (fun c => c ≠ '<'.cp))) (rLitCI "</script>".tx)))))),
    -- r'"salary":\s*"([^"]*)"'
    rSeq (rLitCI "\"salary\":".tx) (rSeq rWs0 (rSeq (rCh '"'.cp)
      (rSeq (rGroup (rClStarG (fun c => c ≠ '"'.cp))) (rCh '"'.cp)))),
    -- r'"compensation":\s*"([^"]*)"'
    rSeq (rLitCI "\"compensation\":".tx) (rSeq rWs0 (rSeq (rCh '"'.cp)
      (rSeq (rGroup (rClStarG (fun c => c ≠ '"'.cp))) (rCh '"'.cp)))),
    -- r'"pay":\s*"([^"]*)"'
    rSeq (rLitCI "\"pay\":".tx) (rSeq rWs0 (rSeq (rCh '"'.cp)
      (rSeq (rGroup (rClStarG (fun c => c ≠ '"'.cp))) (rCh '"'.cp)))) ]

/-- The `meta_patterns` list (`re.IGNORECASE`). -/
def spaMetaPats : List Rx :=
  [ -- r'<meta[^>]*property="(?:job:)?salary"[^>]*content="([^"]*)"'
    rSeq (rLitCI "<meta".tx) (rSeq (rClStarG (fun c => c ≠ '>'.cp))
      (rSeq (rLitCI "property=\"".tx) (rSeq (rOpt (rLitCI "job:".tx))
        (rSeq (rLitCI "salary\"".tx) (rSeq (rClStarG (fun c => c ≠ '>'.cp))
          (rSeq (rLitCI "content=\"".tx)
            (rSeq (rGroup (rClStarG (fun c => c ≠ '"'.cp))) (rCh '"'.cp)))))))),
    -- r'<meta[^>]*name="salary"[^>]*content="([^"]*)"'
    rSeq (rLitCI "<meta".tx) (rSeq (rClStarG (fun c => c ≠ '>'.cp))
      (rSeq (rLitCI "name=\"salary\"".tx) (rSeq (rClStarG (fun c => c ≠ '>'.cp))
        (rSeq (rLitCI "content=\"".tx)
          (rSeq (rGroup (rClStarG (fun c => c ≠ '"'.cp))) (rCh '"'.cp)))))),
    -- r'"@type":\s*"JobPosting"[^}]*"baseSalary":\s*\{[^}]*"value":\s*"([^"]*)"'
    rSeq (rLitCI "\"@type\":".tx) (rSeq rWs0 (rSeq (rLitCI "\"jobposting\"".tx)
      (rSeq (rClStarG (fun c => c ≠ cbraceC)) (rSeq (rLitCI "\"basesalary\":".tx)
        (rSeq rWs0 (rSeq (rCh obraceC) (rSeq (rClStarG (fun c => c ≠ cbraceC))
          (rSeq (rLitCI "\"value\":".tx) (rSeq rWs0 (rSeq (rCh '"'.cp)
            (rSeq (rGroup (rClStarG (fun c => c ≠ '"'.cp))) (rCh '"'.cp)))))))))))) ]

/-- The match-processing loop shared by the `json_patterns` branch:
JSON-looking captures go through `json.loads` + `_search_json_for_salary`,
other captures through a keyword filter + `extract_salary`. -/
def spaJsonMatchLoop (jp : JParse) : List RCaps → Option Txt
  | [] => none
  | caps :: rest =>
    let m := caps.headD []
    if (stripWsL m).headD 0 = obraceC then
      match jp m with
      | some data =>
        match searchJson 3 data with
        | some s => if truthyS s then some s else spaJsonMatchLoop jp rest
        | none => spaJsonMatchLoop jp rest
      | none => spaJsonMatchLoop jp rest
    else
      if ["$".tx, "k".tx, "salary".tx, "compensation".tx].any
           (fun kw => containsSub (lowerL m) kw) then
        let extracted := extract_salary m
        if truthyS extracted && extracted ≠ "TBD".tx then some extracted
        else spaJsonMatchLoop jp rest
      else spaJsonMatchLoop jp rest

/-- The `for pattern in json_patterns` loop. -/
def spaJsonPatLoop (jp : JParse) (html : Txt) : List Rx → Option Txt
  | [] => none
  | p :: rest =>
    match spaJsonMatchLoop jp (reAll p html) with
    | some s => some s
    | none => spaJsonPatLoop jp html rest

/-- The query-string parameter scan. -/
def spaParamValues : List Txt → Option Txt
  | [] => none
  | v :: rest =>
    let extracted := extract_salary v
    if truthyS extracted && extracted ≠ "TBD".tx then some extracted
    else spaParamValues rest

def spaParamLoop : List (Txt × List Txt) → Option Txt
  | [] => none
  | (k, vs) :: rest =>
    if ["salary".tx, "pay".tx, "compensation".tx, "wage".tx].any
         (fun sk => containsSub (lowerL k) sk) then
      match spaParamValues vs with
      | some s => some s
      | none => spaParamLoop rest
    else spaParamLoop rest

/-- The `for pattern in meta_patterns` inner loop. -/
def spaMetaMatchLoop : List RCaps → Option Txt
  | [] => none
  | caps :: rest =>
    let extracted := extract_salary (caps.headD [])
    if truthyS extracted && extracted ≠ "TBD".tx then some extracted
    else spaMetaMatchLoop rest

def spaMetaPatLoop (html : Txt) : List Rx → Option Txt
  | [] => none
  | p :: rest =>
    match spaMetaMatchLoop (reAll p html) with
    | some s => some s
    | none => spaMetaPatLoop html rest

/-- `JobParser._extract_salary_from_spa`: embedded-state blobs, then
the API probe, then query parameters, then meta/structured data. -/
def extractSalaryFromSpa (net : Net) (jp : JParse) (html : Txt) (url : Option Txt) :
    Option Txt :=
  match spaJsonPatLoop jp html spaJsonPats with
  | some s => some s
  | none =>
    let viaApi := if truthyO url then tryApiEndpoints net (getS url) else none
    match viaApi with
    | some s => if truthyS s then some s else spaRest
    | none => spaRest
where
  spaRest : Option Txt :=
    let viaParams :=
      if truthyO url then spaParamLoop (parseQS (urlparseT (getS url)).query)
      else none
    match viaParams with
    | some s => some s
    | none => spaMetaPatLoop html spaMetaPats

/-! # The aggregator (`parse_job_posting`) -/

/-- The record `parse_job_posting` returns. -/
structure ParsedRecord where
  company_name : Option Txt
  position_title : Option Txt
  salary : Txt
  suggested_template : Option Txt
  template_source : Txt
  confidence : Txt
deriving DecidableEq, Repr

/-- `JobParser.parse_job_posting`. -/
def parse_job_posting (net : Net) (jp : JParse) (jd : Txt) (url : Option Txt) :
    ParsedRecord :=
  let (company, position0) := extract_from_content jd url
  let position :=
    if !truthyO position0 && truthyO url then
      if isSpaPage jd then
        match extractFromUrlPath (getS url) with
        | some up => if truthyS up then some up else position0
        | none => position0
      else position0
    else position0
  let salary0 := extract_salary jd
  let salary :=
    if salary0 = "TBD".tx && isSpaPage jd && truthyO url then
      match extractSalaryFromSpa net jp jd url with
      | some s => if truthyS s then s else salary0
      | none => salary0
    else salary0
  let suggested :=
    if truthyO position then select_resume_template (getS position) else none
  let tsource := if truthyO suggested then "auto-detected".tx else "none".tx
  let conf0 :=
    if truthyO company && truthyO position then "high".tx
    else if truthyO company || truthyO position then "medium".tx
    else "low".tx
  let conf :=
    if isSpaPage jd then
      (if conf0 = "high".tx then "medium".tx else "low".tx)
    else conf0
  ⟨company, position, salary, suggested, tsource, conf⟩

/-! # Decided per-value properties and concrete fixtures for the claims -/

/-- The decided property for claim C3 at one value. -/
def c3check (n : Nat) : Bool :=
  extract_salary ('$'.cp :: natDigitsL n ++ ['K'.cp]) == '$'.cp :: commaFmt (n * 1000)

/-- The decided property for the amended claim C4 at one value: the
second textual endpoint is emitted second, unmodified. -/
def c4check (n : Nat) : Bool :=
  extract_salary ("$120K - $".tx ++ natDigitsL n ++ ['K'.cp])
    == "$120,000 - $".tx ++ commaFmt (n * 1000)

/-- A minimal script-rendered page: a framework mount marker and an
empty body. -/
def cexSpaHtml : Txt := "<html><body><div id=\"__next\"></div></body></html>".tx

/-- A URL whose path carries a 32-hex-character job-id segment, making
it eligible for the `_try_api_endpoints` probe. -/
def cexSpaUrl : Txt := "https://x.com/AAAAAAAAAAAAAAAAAAAAAAAAAAAAAAAA/j".tx

/-- A network on which every request fails. -/
def cexNetDown : Net := fun _ => none

/-- A network on which the first conventional API endpoint returns a
JSON object with a salary field. -/
def cexNetUp : Net := fun e =>
  if e = "https://x.com/api/jobs/AAAAAAAAAAAAAAAAAAAAAAAAAAAAAAAA".tx then
    some ⟨some (JValue.jobj [("salary".tx, JValue.jstr "$100K".tx)]), []⟩
  else none

/-- A `json.loads` oracle on which every parse fails (the embedded-blob
branch is not exercised by the fixtures). -/
def cexJParse : JParse := fun _ => none

/-! # Invariant predicates on patterns and extraction results -/

/-- Every result's remainder is a drop of the input. -/
def RxDrops (p : Rx) : Prop := ∀ l pr, pr ∈ p l → ∃ k, pr.2 = l.drop k

/-- Any successful match witnesses a character satisfying `f`. -/
def RxNeeds (f : Nat → Bool) (p : Rx) : Prop :=
  ∀ l pr, pr ∈ p l → ∃ c ∈ l, f c = true

/-- All captured characters come from the input. -/
def RxCapsSub (p : Rx) : Prop :=
  ∀ l pr, pr ∈ p l → ∀ cap ∈ pr.1, ∀ c ∈ cap, c ∈ l

/-- A pattern producing no captures. -/
def RxNoCaps (p : Rx) : Prop := ∀ l pr, pr ∈ p l → pr.1 = []

/-- The salary-anchor characters: `$`, `k`/`K`, `%`, `:`. -/
def salaryAnchorC (c : Nat) : Bool :=
  c = '$'.cp || lowC c = 'k'.cp || c = '%'.cp || c = ':'.cp

def RxConsumes (p : Rx) : Prop := ∀ l pr, pr ∈ p l → pr.2.length < l.length

/-- The invariant "a `some` value is a nonempty string". -/
def TrO (o : Option Txt) : Prop := ∀ s, o = some s → truthyS s = true

/-- The confidence computation of `parse_job_posting` as a function of
the truthiness of the two extracted fields and the SPA flag. -/
def confVal (c p s : Bool) : Txt :=
  let conf0 := if c && p then "high".tx else if c || p then "medium".tx else "low".tx
  if s then (if conf0 = "high".tx then "medium".tx else "low".tx) else conf0

set_option maxRecDepth 40000

/-! # Generic helper lemmas -/

/-- Boolean equality on text implies propositional equality. -/
theorem txtEq_of_beq {a b : Txt} (h : (a == b) = true) : a = b := eq_of_beq h

/-- Extract one instance from a 100-wide decided chunk. -/
theorem chunk_extract {f : Nat → Bool} {b : Nat}
    (h : ((List.range 100).all (fun i => f (b + i))) = true)
    (n : Nat) (h1 : b ≤ n) (h2 : n < b + 100) : f n = true := by
  have hm := List.all_eq_true.mp h (n - b) (List.mem_range.mpr (by omega))
  have : b + (n - b) = n := by omega
  simpa [this] using hm

/-! # C3: K-suffix expansion of single salaries -/

theorem c3chunkA : ((List.range 100).all (fun i => c3check (10 + i))) = true := by decide
theorem c3chunkB : ((List.range 100).all (fun i => c3check (110 + i))) = true := by decide
theorem c3chunkC : ((List.range 100).all (fun i => c3check (210 + i))) = true := by decide
theorem c3chunkD : ((List.range 100).all (fun i => c3check (310 + i))) = true := by decide
theorem c3chunkE : ((List.range 100).all (fun i => c3check (410 + i))) = true := by decide
theorem c3chunkF : ((List.range 100).all (fun i => c3check (510 + i))) = true := by decide
theorem c3chunkG : ((List.range 100).all (fun i => c3check (610 + i))) = true := by decide
theorem c3chunkH : ((List.range 100).all (fun i => c3check (710 + i))) = true := by decide
theorem c3chunkI : ((List.range 100).all (fun i => c3check (810 + i))) = true := by decide
theorem c3chunkJ : ((List.range 100).all (fun i => c3check (900 + i))) = true := by decide

theorem c3check_all (n : Nat) (h1 : 10 ≤ n) (h2 : n ≤ 999) : c3check n = true := by
  by_cases a : n < 110
  · exact chunk_extract c3chunkA n (by omega) (by omega)
  by_cases b : n < 210
  · exact chunk_extract c3chunkB n (by omega) (by omega)
  by_cases c : n < 310
  · exact chunk_extract c3chunkC n (by omega) (by omega)
  by_cases d : n < 410
  · exact chunk_extract c3chunkD n (by omega) (by omega)
  by_cases e : n < 510
  · exact chunk_extract c3chunkE n (by omega) (by omega)
  by_cases f : n < 610
  · exact chunk_extract c3chunkF n (by omega) (by omega)
  by_cases g : n < 710
  · exact chunk_extract c3chunkG n (by omega) (by omega)
  by_cases h : n < 810
  · exact chunk_extract c3chunkH n (by omega) (by omega)
  by_cases i : n < 900
  · exact chunk_extract c3chunkI n (by omega) (by omega)
  exact chunk_extract c3chunkJ n (by omega) (by omega)

/-- **C3.** For every integer `N` in `[10, 999]`, `extract_salary` on
the string `"$" + N + "K"` returns `"$"` followed by `N * 1000`
rendered with thousands separators: K-suffixed values are expanded by a
factor of 1000 in the normalized display string. -/
theorem c3_extract_salary_k_expansion (n : Nat) (h1 : 10 ≤ n) (h2 : n ≤ 999) :
    extract_salary ('$'.cp :: natDigitsL n ++ ['K'.cp]) = '$'.cp :: commaFmt (n * 1000) :=
  txtEq_of_beq (c3check_all n h1 h2)

/-- **C3 witness.** The theorem instantiated at `N = 120`:
`extract_salary "$120K" = "$120,000"`. -/
theorem c3_extract_salary_k_expansion_witness :
    (10 ≤ 120 ∧ 120 ≤ 999) ∧
    extract_salary ('$'.cp :: natDigitsL 120 ++ ['K'.cp]) = '$'.cp :: commaFmt (120 * 1000) :=
  ⟨⟨by omega, by omega⟩, c3_extract_salary_k_expansion 120 (by omega) (by omega)⟩

/-! # C4: range display order -/

theorem c4chunkA : ((List.range 100).all (fun i => c4check (10 + i))) = true := by decide
theorem c4chunkB : ((List.range 100).all (fun i => c4check (110 + i))) = true := by decide
theorem c4chunkC : ((List.range 100).all (fun i => c4check (210 + i))) = true := by decide
theorem c4chunkD : ((List.range 100).all (fun i => c4check (310 + i))) = true := by decide
theorem c4chunkE : ((List.range 100).all (fun i => c4check (410 + i))) = true := by decide
theorem c4chunkF : ((List.range 100).all (fun i => c4check (510 + i))) = true := by decide
theorem c4chunkG : ((List.range 100).all (fun i => c4check (610 + i))) = true := by decide
theorem c4chunkH : ((List.range 100).all (fun i => c4check (710 + i))) = true := by decide
theorem c4chunkI : ((List.range 100).all (fun i => c4check (810 + i))) = true := by decide
theorem c4chunkJ : ((List.range 100).all (fun i => c4check (900 + i))) = true := by decide

theorem c4check_all (n : Nat) (h1 : 10 ≤ n) (h2 : n ≤ 999) : c4check n = true := by
  by_cases a : n < 110
  · exact chunk_extract c4chunkA n (by omega) (by omega)
  by_cases b : n < 210
  · exact chunk_extract c4chunkB n (by omega) (by omega)
  by_cases c : n < 310
  · exact chunk_extract c4chunkC n (by omega) (by omega)
  by_cases d : n < 410
  · exact chunk_extract c4chunkD n (by omega) (by omega)
  by_cases e : n < 510
  · exact chunk_extract c4chunkE n (by omega) (by omega)
  by_cases f : n < 610
  · exact chunk_extract c4chunkF n (by omega) (by omega)
  by_cases g : n < 710
  · exact chunk_extract c4chunkG n (by omega) (by omega)
  by_cases h : n < 810
  · exact chunk_extract c4chunkH n (by omega) (by omega)
  by_cases i : n < 900
  · exact chunk_extract c4chunkI n (by omega) (by omega)
  exact chunk_extract c4chunkJ n (by omega) (by omega)

/-- **C4 counterexample.** The claim "whenever `extract_salary` returns
a range `$X - $Y`, the parsed low `X` is ≤ the parsed high `Y`, even
for descending textual input" is false: on `"$180K - $120K"` the result
is `"$180,000 - $120,000"`, whose displayed values are `180000`
followed by `120000`, and `180000 ≤ 120000` does not hold. -/
theorem c4_descending_range_not_swapped :
    extract_salary "$180K - $120K".tx
      = '$'.cp :: commaFmt 180000 ++ " - $".tx ++ commaFmt 120000
    ∧ ¬(180000 ≤ 120000) :=
  ⟨txtEq_of_beq (by decide), by omega⟩

/-- **C4 (amended).** `extract_salary` emits range endpoints in textual
order, with no swap and no reordering: for every `n` in `[10, 999]`,
`"$120K - $" + n + "K"` yields `"$120,000 - $" + (n*1000 with
separators)` — so the low ≤ high invariant holds only when the textual
range is ascending, and fails for descending input (`n < 120`). -/
theorem c4_range_order_preserved (n : Nat) (h1 : 10 ≤ n) (h2 : n ≤ 999) :
    extract_salary ("$120K - $".tx ++ natDigitsL n ++ ['K'.cp])
      = "$120,000 - $".tx ++ commaFmt (n * 1000) :=
  txtEq_of_beq (c4check_all n h1 h2)

/-- **C4 witness.** The amended theorem at the descending instance
`n = 80`: `extract_salary "$120K - $80K" = "$120,000 - $80,000"`. -/
theorem c4_range_order_preserved_witness :
    (10 ≤ 80 ∧ 80 ≤ 999) ∧
    extract_salary ("$120K - $".tx ++ natDigitsL 80 ++ ['K'.cp])
      = "$120,000 - $".tx ++ commaFmt (80 * 1000) :=
  ⟨⟨by omega, by omega⟩, c4_range_order_preserved 80 (by omega) (by omega)⟩

/-! # Template-selector lemmas -/

/-- `select_resume_template` only ever produces the four fixed template
identifiers or `none`. -/
theorem select_resume_template_codomain (t : Txt) :
    select_resume_template t = none ∨
    select_resume_template t = some "senior_engineering_manager".tx ∨
    select_resume_template t = some "data_engineering_manager".tx ∨
    select_resume_template t = some "engineering_manager".tx ∨
    select_resume_template t = some "senior_software_engineer".tx := by
  unfold select_resume_template
  dsimp only
  split_ifs <;> tauto

/-- A selected template is never the empty string, so its Python
truthiness agrees with option-ness. -/
theorem truthyO_select (t : Txt) :
    truthyO (select_resume_template t) = (select_resume_template t).isSome := by
  rcases select_resume_template_codomain t with h | h | h | h | h <;> rw [h] <;> decide

/-! # C6: the default-to-IC rule -/

/-- **C6 counterexample.**  The claim "every title containing a generic
engineering/developer/analyst-adjacent keyword that matches no earlier
rule gets `senior_software_engineer`, for example `Data Analyst`" is
false on the code: the default rule's keyword list has no
analyst-adjacent entry, so `select_resume_template "Data Analyst"`
returns `none`. -/
theorem c6_data_analyst_gets_none : select_resume_template "Data Analyst".tx = none := by
  decide

/-- **C6 (amended).** For every position title containing one of the
default rule's generic engineering/developer keywords (`software
engineer`, `engineer`, `developer`, `programmer`, `data engineer`,
`backend engineer`, `frontend engineer`, `full stack`, `platform
engineer`, `devops`, `sre`) that matches none of the earlier management
or senior-IC rules, `select_resume_template` returns
`senior_software_engineer`; analyst titles match no rule and fall
through to `none`. -/
theorem c6_default_to_ic (t : Txt)
    (hne : truthyS t = true)
    (hkw : ∃ kw ∈ tplDefaultIC, containsSub (lowerL t) kw = true)
    (h1 : anySub (lowerL t) tplSeniorMgr = false)
    (h2 : anySub (lowerL t) tplDataMgr = false)
    (h3 : anySub (lowerL t) tplEngMgr = false)
    (h3b : (containsSub (lowerL t) "manager".tx && anySub (lowerL t) tplMgrKey) = false)
    (h4 : anySub (lowerL t) tplSeniorIC = false) :
    select_resume_template t = some "senior_software_engineer".tx := by
  have hkw' : anySub (lowerL t) tplDefaultIC = true := by
    rcases hkw with ⟨kw, hmem, hsub⟩
    exact List.any_eq_true.mpr ⟨kw, hmem, hsub⟩
  unfold select_resume_template
  rw [hne]
  dsimp only
  rw [h1, h2, h3, h3b, h4, hkw']
  simp

/-- **C6 witness.** The amended theorem at `"Software Developer"`. -/
theorem c6_default_to_ic_witness :
    (truthyS "Software Developer".tx = true ∧
     ∃ kw ∈ tplDefaultIC, containsSub (lowerL "Software Developer".tx) kw = true) ∧
    select_resume_template "Software Developer".tx = some "senior_software_engineer".tx :=
  ⟨⟨by decide, ⟨"developer".tx, by decide, by decide⟩⟩,
   c6_default_to_ic "Software Developer".tx (by decide)
     ⟨"developer".tx, by decide, by decide⟩ (by decide) (by decide) (by decide)
     (by decide) (by decide)⟩

/-! # C5: pattern order and hourly inputs -/

/-- **C5 counterexample.** The claim "hourly rates — single or range —
are handled by the hourly rule: an hourly range such as `$50 - $80/hr`
yields an hourly-rate display, not an annual-salary display" is false:
the earlier mixed-range pattern captures the two amounts first and the
result is the annual-salary range `"$50,000 - $80,000"`, with no
hourly marker in the output. -/
theorem c5_hourly_range_displayed_as_annual :
    extract_salary "$50 - $80/hr".tx = '$'.cp :: commaFmt 50000 ++ " - $".tx ++ commaFmt 80000
    ∧ containsSub (extract_salary "$50 - $80/hr".tx) "/hour".tx = false
    ∧ containsSub (extract_salary "$50 - $80/hr".tx) "/hr".tx = false :=
  ⟨eq_of_beq (by decide), by decide, by decide⟩

/-- **C5 (amended).** `extract_salary` tries its pattern list in order
and stops at the first match, but hourly inputs never produce an
hourly-rate display: an hourly range is captured by the earlier
mixed-range rule and rendered as an annual-salary range, and a single
hourly rate matches the hourly pattern but is rendered as a plain
dollar amount (the formatter's `'/hour' in pattern` test is false for
the actual pattern string). -/
theorem c5_hourly_not_hourly_display :
    extract_salary "$75/hour".tx = "$75".tx
    ∧ extract_salary "$65 per hour".tx = "$65".tx
    ∧ extract_salary "$50 - $80/hr".tx = '$'.cp :: commaFmt 50000 ++ " - $".tx ++ commaFmt 80000 :=
  ⟨eq_of_beq (by decide), eq_of_beq (by decide), eq_of_beq (by decide)⟩

/-! # C7: the title-location branch with URL company resolution -/

/-- **C7.** When the title tag parses as `A - B` and the second segment
looks like a location, `extract_from_content` takes the first segment
as the position and resolves the company from the URL extractor: on
`"<title>Senior Software Engineer - Remote</title>"` with the URL
`https://jobs.lever.co/acme-corp/abc123` it returns the position
`"Senior Software Engineer"` and the company `"Acme Corp"`. -/
theorem c7_location_branch_resolves_company_from_url :
    extract_from_content "<title>Senior Software Engineer - Remote</title>".tx
        (some "https://jobs.lever.co/acme-corp/abc123".tx)
      = (some "Acme Corp".tx, some "Senior Software Engineer".tx) :=
  eq_of_beq (by decide)

/-! # C9: determinism and the network probe -/

/-- **C9 counterexample.** The claim "`parse_job_posting` is a pure
function of its two arguments; the output does not depend on responses
from the best-effort network probe" is false: on a script-rendered page
with a probe-eligible URL, two runs with identical `(text, url)` but
different network behaviour return different records (`salary` is
`"TBD"` when every request fails, `"$100,000"` when an API endpoint
serves a salary). -/
theorem c9_output_depends_on_network :
    parse_job_posting cexNetDown cexJParse cexSpaHtml (some cexSpaUrl)
      ≠ parse_job_posting cexNetUp cexJParse cexSpaHtml (some cexSpaUrl) := by
  intro h
  have h2 := congrArg ParsedRecord.salary h
  have eA : (parse_job_posting cexNetDown cexJParse cexSpaHtml (some cexSpaUrl)).salary
      = "TBD".tx := eq_of_beq (by decide)
  have eB : (parse_job_posting cexNetUp cexJParse cexSpaHtml (some cexSpaUrl)).salary
      = "$100,000".tx := eq_of_beq (by decide)
  rw [eA, eB] at h2
  exact absurd h2 (by decide)

/-- **C9 (amended).** `parse_job_posting` is a deterministic pure
function of `(text, url)` whenever the page is not detected as
script-rendered: the network and JSON oracles are consulted only on
script-rendered pages, so any two environments give the same record. -/
theorem c9_pure_when_not_script_rendered (net1 net2 : Net) (jp1 jp2 : JParse)
    (jd : Txt) (url : Option Txt) (h : isSpaPage jd = false) :
    parse_job_posting net1 jp1 jd url = parse_job_posting net2 jp2 jd url := by
  unfold parse_job_posting
  simp only [h, Bool.false_and, Bool.and_false, if_false, Bool.false_eq_true, ite_false]

/-- **C9 (amended) witness.** The theorem at a plain-text page and two
different environments. -/
theorem c9_pure_when_not_script_rendered_witness :
    isSpaPage "hello".tx = false ∧
    parse_job_posting (fun _ => none) (fun _ => none) "hello".tx none
      = parse_job_posting (fun _ => some ⟨none, "x".tx⟩) (fun _ => some JValue.jother)
          "hello".tx none :=
  ⟨by decide,
   c9_pure_when_not_script_rendered _ _ _ _ "hello".tx none (by decide)⟩

/-! # C10: the `template_source` field -/

/-- `template_source` is computed from the suggested template's
truthiness (definitional consequence of the aggregator). -/
theorem parse_tsource_eq (net : Net) (jp : JParse) (jd : Txt) (url : Option Txt) :
    (parse_job_posting net jp jd url).template_source
      = (if truthyO (parse_job_posting net jp jd url).suggested_template
         then "auto-detected".tx else "none".tx) := rfl

/-- `suggested_template` is the template selected from the resolved
position (definitional consequence of the aggregator). -/
theorem parse_suggested_eq (net : Net) (jp : JParse) (jd : Txt) (url : Option Txt) :
    (parse_job_posting net jp jd url).suggested_template
      = (if truthyO (parse_job_posting net jp jd url).position_title
         then select_resume_template (getS (parse_job_posting net jp jd url).position_title)
         else none) := rfl

/-- A suggested template is never the empty string. -/
theorem truthyO_parse_suggested (net : Net) (jp : JParse) (jd : Txt) (url : Option Txt) :
    truthyO (parse_job_posting net jp jd url).suggested_template
      = ((parse_job_posting net jp jd url).suggested_template).isSome := by
  rw [parse_suggested_eq]
  by_cases h : truthyO (parse_job_posting net jp jd url).position_title = true
  · rw [h]
    simp only [if_true]
    exact truthyO_select _
  · rw [Bool.not_eq_true] at h
    rw [h]
    rfl

/-- **C10.** Every record returned by `parse_job_posting` carries a
`template_source` field whose value is `"auto-detected"` exactly when
`suggested_template` is non-null and `"none"` otherwise. -/
theorem c10_template_source_tracks_suggestion (net : Net) (jp : JParse)
    (jd : Txt) (url : Option Txt) :
    ((parse_job_posting net jp jd url).template_source = "auto-detected".tx
      ↔ (parse_job_posting net jp jd url).suggested_template ≠ none) ∧
    ((parse_job_posting net jp jd url).template_source = "none".tx
      ↔ (parse_job_posting net jp jd url).suggested_template = none) := by
  rw [parse_tsource_eq, truthyO_parse_suggested]
  rcases h : (parse_job_posting net jp jd url).suggested_template with _ | s
  · simp
    decide
  · simp
    decide


/-! # Symbolic pattern lemmas and aggregator invariants (C1, C2, C8) -/

theorem rxDrops_eps : RxDrops rEps := by
  intro l pr h
  simp [rEps] at h
  exact ⟨0, by simp [h]⟩

theorem rxDrops_cl (f : Nat → Bool) : RxDrops (rCl f) := by
  intro l pr h
  unfold rCl at h
  match l with
  | [] => simp at h
  | c :: rest =>
    by_cases hf : f c = true
    · simp [hf] at h
      exact ⟨1, by simp [h]⟩
    · simp [hf] at h

theorem rxDrops_seq {p q : Rx} (hp : RxDrops p) (hq : RxDrops q) : RxDrops (rSeq p q) := by
  intro l pr h
  unfold rSeq at h
  rw [List.mem_flatMap] at h
  obtain ⟨a, ha, hmem⟩ := h
  rw [List.mem_map] at hmem
  obtain ⟨b, hb, rfl⟩ := hmem
  obtain ⟨k1, hk1⟩ := hp l a ha
  obtain ⟨k2, hk2⟩ := hq a.2 b hb
  exact ⟨k1 + k2, by simp [hk2, hk1, List.drop_drop, Nat.add_comm]⟩

theorem rxDrops_alt {p q : Rx} (hp : RxDrops p) (hq : RxDrops q) : RxDrops (rAlt p q) := by
  intro l pr h
  unfold rAlt at h
  rw [List.mem_append] at h
  rcases h with h | h
  · exact hp l pr h
  · exact hq l pr h

theorem rxDrops_alts {ps : List Rx} (h : ∀ p ∈ ps, RxDrops p) : RxDrops (rAlts ps) := by
  intro l pr hm
  unfold rAlts at hm
  rw [List.mem_flatMap] at hm
  obtain ⟨p, hp, hmem⟩ := hm
  exact h p hp l pr hmem

theorem rxDrops_opt {p : Rx} (hp : RxDrops p) : RxDrops (rOpt p) :=
  rxDrops_alt hp rxDrops_eps

theorem rxDrops_group {p : Rx} (hp : RxDrops p) : RxDrops (rGroup p) := by
  intro l pr h
  unfold rGroup at h
  rw [List.mem_map] at h
  obtain ⟨a, ha, rfl⟩ := h
  exact hp l a ha

theorem rxDrops_optIn {p : Rx} (hp : RxDrops p) (n : Nat) : RxDrops (rOptIn p n) := by
  intro l pr h
  unfold rOptIn rAlt at h
  rw [List.mem_append] at h
  rcases h with h | h
  · exact hp l pr h
  · simp at h
    exact ⟨0, by simp [h]⟩

theorem rxDrops_rDrops (l : Txt) (ks : List Nat) (pr : RCaps × Txt)
    (h : pr ∈ rDrops l ks) : ∃ k, pr.2 = l.drop k := by
  unfold rDrops at h
  rw [List.mem_map] at h
  obtain ⟨k, _, rfl⟩ := h
  exact ⟨k, rfl⟩

theorem rxDrops_clStarG (f : Nat → Bool) : RxDrops (rClStarG f) := by
  intro l pr h
  exact rxDrops_rDrops l _ pr h

theorem rxDrops_clPlusG (f : Nat → Bool) : RxDrops (rClPlusG f) := by
  intro l pr h
  exact rxDrops_rDrops l _ pr h

theorem rxDrops_clStarL (f : Nat → Bool) : RxDrops (rClStarL f) := by
  intro l pr h
  exact rxDrops_rDrops l _ pr h

theorem rxDrops_clPlusL (f : Nat → Bool) : RxDrops (rClPlusL f) := by
  intro l pr h
  exact rxDrops_rDrops l _ pr h

theorem rxDrops_clBetween (f : Nat → Bool) (lo hi : Nat) : RxDrops (rClBetween f lo hi) := by
  intro l pr h
  unfold rClBetween at h
  dsimp only at h
  split_ifs at h
  · simp at h
  · exact rxDrops_rDrops l _ pr h

theorem rxDrops_litCI (s : Txt) : RxDrops (rLitCI s) := by
  induction s with
  | nil => exact rxDrops_eps
  | cons c rest ih => exact rxDrops_seq (rxDrops_cl _) ih

theorem rxDrops_lit (s : Txt) : RxDrops (rLit s) := by
  induction s with
  | nil => exact rxDrops_eps
  | cons c rest ih => exact rxDrops_seq (rxDrops_cl _) ih

theorem rxDrops_starGF {p : Rx} (hp : RxDrops p) (fuel : Nat) : RxDrops (rStarGF p fuel) := by
  induction fuel with
  | zero =>
    intro l pr h
    simp [rStarGF] at h
    exact ⟨0, by simp [h]⟩
  | succ n ih =>
    intro l pr h
    unfold rStarGF at h
    rw [List.mem_append] at h
    rcases h with h | h
    · rw [List.mem_flatMap] at h
      obtain ⟨a, ha, hmem⟩ := h
      rw [List.mem_filter] at ha
      rw [List.mem_map] at hmem
      obtain ⟨b, hb, rfl⟩ := hmem
      obtain ⟨k1, hk1⟩ := hp l a ha.1
      obtain ⟨k2, hk2⟩ := ih a.2 b hb
      exact ⟨k1 + k2, by simp [hk2, hk1, List.drop_drop, Nat.add_comm]⟩
    · simp at h
      exact ⟨0, by simp [h]⟩

theorem rxDrops_starG {p : Rx} (hp : RxDrops p) : RxDrops (rStarG p) := by
  intro l pr h
  exact rxDrops_starGF hp l.length l pr h

theorem rxDrops_plusG {p : Rx} (hp : RxDrops p) : RxDrops (rPlusG p) :=
  rxDrops_seq hp (rxDrops_starG hp)

theorem rxDrops_end : RxDrops rEnd := by
  intro l pr h
  unfold rEnd at h
  match l with
  | [] => simp at h; exact ⟨0, by simp [h]⟩
  | [c] =>
    dsimp at h
    split_ifs at h with hc
    · simp at h; exact ⟨0, by simp [h]⟩
    · simp at h
  | a :: b :: t => simp at h

theorem rxDrops_endML : RxDrops rEndML := by
  intro l pr h
  unfold rEndML at h
  match l with
  | [] => simp at h; exact ⟨0, by simp [h]⟩
  | c :: t =>
    dsimp at h
    split_ifs at h with hc
    · simp at h; exact ⟨0, by simp [h]⟩
    · simp at h

theorem rxDrops_wb : RxDrops rWB := by
  intro l pr h
  unfold rWB at h
  match l with
  | [] => simp at h; exact ⟨0, by simp [h]⟩
  | c :: t =>
    dsimp at h
    split_ifs at h with hc
    · simp at h
    · simp at h; exact ⟨0, by simp [h]⟩

theorem rxNeeds_cl {f g : Nat → Bool} (h : ∀ a, g a = true → f a = true) :
    RxNeeds f (rCl g) := by
  intro l pr hm
  unfold rCl at hm
  match l with
  | [] => simp at hm
  | c :: rest =>
    by_cases hg : g c = true
    · exact ⟨c, by simp, h c hg⟩
    · simp [hg] at hm

theorem rxNeeds_seq_left {f : Nat → Bool} {p q : Rx} (hp : RxNeeds f p) :
    RxNeeds f (rSeq p q) := by
  intro l pr hm
  unfold rSeq at hm
  rw [List.mem_flatMap] at hm
  obtain ⟨a, ha, _⟩ := hm
  exact hp l a ha

theorem rxNeeds_seq_right {f : Nat → Bool} {p q : Rx} (hd : RxDrops p)
    (hq : RxNeeds f q) : RxNeeds f (rSeq p q) := by
  intro l pr hm
  unfold rSeq at hm
  rw [List.mem_flatMap] at hm
  obtain ⟨a, ha, hmem⟩ := hm
  rw [List.mem_map] at hmem
  obtain ⟨b, hb, rfl⟩ := hmem
  obtain ⟨c, hc, hfc⟩ := hq a.2 b hb
  obtain ⟨k, hk⟩ := hd l a ha
  rw [hk] at hc
  exact ⟨c, List.mem_of_mem_drop hc, hfc⟩

theorem rxNeeds_alt {f : Nat → Bool} {p q : Rx} (hp : RxNeeds f p) (hq : RxNeeds f q) :
    RxNeeds f (rAlt p q) := by
  intro l pr hm
  unfold rAlt at hm
  rw [List.mem_append] at hm
  rcases hm with hm | hm
  · exact hp l pr hm
  · exact hq l pr hm

theorem rxNeeds_alts {f : Nat → Bool} {ps : List Rx} (h : ∀ p ∈ ps, RxNeeds f p) :
    RxNeeds f (rAlts ps) := by
  intro l pr hm
  unfold rAlts at hm
  rw [List.mem_flatMap] at hm
  obtain ⟨p, hp, hmem⟩ := hm
  exact h p hp l pr hmem

theorem rxNeeds_group {f : Nat → Bool} {p : Rx} (hp : RxNeeds f p) :
    RxNeeds f (rGroup p) := by
  intro l pr hm
  unfold rGroup at hm
  rw [List.mem_map] at hm
  obtain ⟨a, ha, rfl⟩ := hm
  exact hp l a ha

theorem rxNeeds_clPlusG (f : Nat → Bool) : RxNeeds f (rClPlusG f) := by
  intro l pr hm
  unfold rClPlusG at hm
  rcases hl : l.takeWhile f with _ | ⟨c, rest⟩
  · rw [hl] at hm
    simp [descRange, rDrops] at hm
  · match l with
    | [] => simp at hl
    | a :: t =>
      have hfa : f a = true := by
        by_cases hfa : f a = true
        · exact hfa
        · rw [List.takeWhile_cons, if_neg (by simp [hfa])] at hl
          simp at hl
      exact ⟨a, by simp, hfa⟩

/-- A satisfied `RxNeeds` with no satisfying character in the input
means the pattern matches nowhere. -/
theorem rx_no_match {f : Nat → Bool} {p : Rx} (hn : RxNeeds f p)
    {l : Txt} (hf : ∀ c ∈ l, f c = false) : p l = [] := by
  rcases he : p l with _ | ⟨pr, rest⟩
  · rfl
  · obtain ⟨a, ha, hfa⟩ := hn l pr (by rw [he]; simp)
    have := hf a ha
    rw [this] at hfa
    exact absurd hfa (by simp)

/-- `re.search` fails when a needed character is absent. -/
theorem reFirst_none {f : Nat → Bool} {p : Rx} (hn : RxNeeds f p) :
    ∀ l, (∀ c ∈ l, f c = false) → reFirst p l = none := by
  intro l
  induction l with
  | nil =>
    intro hf
    unfold reFirst
    rw [rx_no_match hn hf]
  | cons c t ih =>
    intro hf
    unfold reFirst
    rw [rx_no_match hn hf]
    exact ih (fun a ha => hf a (by simp [ha]))

/-- `re.findall` returns nothing when a needed character is absent. -/
theorem reAllF_none {f : Nat → Bool} {p : Rx} (hn : RxNeeds f p) :
    ∀ fuel l, (∀ c ∈ l, f c = false) → reAllF p fuel l = [] := by
  intro fuel
  induction fuel with
  | zero => intro l _; rfl
  | succ n ih =>
    intro l hf
    match l with
    | [] =>
      unfold reAllF
      rw [rx_no_match hn hf]
    | c :: t =>
      unfold reAllF
      rw [rx_no_match hn hf]
      exact ih t (fun a ha => hf a (by simp [ha]))

theorem reAll_none {f : Nat → Bool} {p : Rx} (hn : RxNeeds f p)
    {l : Txt} (hf : ∀ c ∈ l, f c = false) : reAll p l = [] :=
  reAllF_none hn _ l hf

theorem rxNoCaps_eps : RxNoCaps rEps := by
  intro l pr h
  simp [rEps] at h
  simp [h]

theorem rxNoCaps_cl (f : Nat → Bool) : RxNoCaps (rCl f) := by
  intro l pr h
  unfold rCl at h
  match l with
  | [] => simp at h
  | c :: rest =>
    by_cases hf : f c = true
    · simp [hf] at h
      simp [h]
    · simp [hf] at h

theorem rxNoCaps_rDrops (l : Txt) (ks : List Nat) (pr : RCaps × Txt)
    (h : pr ∈ rDrops l ks) : pr.1 = [] := by
  unfold rDrops at h
  rw [List.mem_map] at h
  obtain ⟨k, _, rfl⟩ := h
  rfl

theorem rxNoCaps_clPlusG (f : Nat → Bool) : RxNoCaps (rClPlusG f) := by
  intro l pr h
  exact rxNoCaps_rDrops l _ pr h

theorem rxNoCaps_clStarG (f : Nat → Bool) : RxNoCaps (rClStarG f) := by
  intro l pr h
  exact rxNoCaps_rDrops l _ pr h

theorem rxNoCaps_clStarL (f : Nat → Bool) : RxNoCaps (rClStarL f) := by
  intro l pr h
  exact rxNoCaps_rDrops l _ pr h

theorem rxNoCaps_seq {p q : Rx} (hp : RxNoCaps p) (hq : RxNoCaps q) :
    RxNoCaps (rSeq p q) := by
  intro l pr h
  unfold rSeq at h
  rw [List.mem_flatMap] at h
  obtain ⟨a, ha, hmem⟩ := h
  rw [List.mem_map] at hmem
  obtain ⟨b, hb, rfl⟩ := hmem
  simp [hp l a ha, hq a.2 b hb]

theorem rxNoCaps_litCI (s : Txt) : RxNoCaps (rLitCI s) := by
  induction s with
  | nil => exact rxNoCaps_eps
  | cons c rest ih => exact rxNoCaps_seq (rxNoCaps_cl _) ih

theorem rxCapsSub_of_noCaps {p : Rx} (hp : RxNoCaps p) : RxCapsSub p := by
  intro l pr h cap hcap
  rw [hp l pr h] at hcap
  simp at hcap

theorem rxCapsSub_seq {p q : Rx} (hd : RxDrops p) (hp : RxCapsSub p)
    (hq : RxCapsSub q) : RxCapsSub (rSeq p q) := by
  intro l pr h cap hcap c hc
  unfold rSeq at h
  rw [List.mem_flatMap] at h
  obtain ⟨a, ha, hmem⟩ := h
  rw [List.mem_map] at hmem
  obtain ⟨b, hb, rfl⟩ := hmem
  dsimp at hcap
  rw [List.mem_append] at hcap
  rcases hcap with hcap | hcap
  · exact hp l a ha cap hcap c hc
  · obtain ⟨k, hk⟩ := hd l a ha
    have := hq a.2 b hb cap hcap c hc
    rw [hk] at this
    exact List.mem_of_mem_drop this

theorem rxCapsSub_group {p : Rx} (hp : RxCapsSub p) : RxCapsSub (rGroup p) := by
  intro l pr h cap hcap c hc
  unfold rGroup at h
  rw [List.mem_map] at h
  obtain ⟨a, ha, rfl⟩ := h
  dsimp at hcap
  rcases hcap with _ | hcap
  · exact List.take_subset _ _ hc
  · exact hp l a ha cap (by assumption) c hc

/-- All captures reported by `re.findall` consist of input characters. -/
theorem reAllF_caps {p : Rx} (hd : RxDrops p) (hcs : RxCapsSub p) :
    ∀ fuel l caps, caps ∈ reAllF p fuel l →
      ∀ cap ∈ caps, ∀ c ∈ cap, c ∈ l := by
  intro fuel
  induction fuel with
  | zero => intro l caps h; simp [reAllF] at h
  | succ n ih =>
    intro l caps h cap hcap c hc
    match l with
    | [] =>
      unfold reAllF at h
      rcases he : p [] with _ | ⟨pr, rest⟩
      · rw [he] at h; simp at h
      · rw [he] at h
        simp at h
        subst h
        have := hcs [] pr (by rw [he]; simp) cap hcap c hc
        simpa using this
    | b :: t =>
      unfold reAllF at h
      rcases he : p (b :: t) with _ | ⟨pr, rest⟩
      · rw [he] at h
        exact List.mem_of_mem_drop (n := 1) (ih t caps h cap hcap c hc)
      · rw [he] at h
        dsimp at h
        by_cases hlen : pr.2.length < t.length + 1
        · rw [if_pos hlen, List.mem_cons] at h
          rcases h with h | h
          · subst h
            exact hcs (b :: t) pr (by rw [he]; simp) cap hcap c hc
          · obtain ⟨k, hk⟩ := hd (b :: t) pr (by rw [he]; simp)
            have := ih pr.2 caps h cap hcap c hc
            rw [hk] at this
            exact List.mem_of_mem_drop this
        · rw [if_neg hlen, List.mem_cons] at h
          rcases h with h | h
          · subst h
            exact hcs (b :: t) pr (by rw [he]; simp) cap hcap c hc
          · exact List.mem_of_mem_drop (n := 1) (ih t caps h cap hcap c hc)

/-- Characters of a `re.sub` result come from the replacement or the
input. -/
theorem mem_reSubAllF {p : Rx} (hd : RxDrops p) (repl : Txt) :
    ∀ fuel l c, c ∈ reSubAllF p repl fuel l → c ∈ repl ∨ c ∈ l := by
  intro fuel
  induction fuel with
  | zero => intro l c h; exact Or.inr h
  | succ n ih =>
    intro l c h
    match l with
    | [] => simp [reSubAllF] at h
    | b :: t =>
      unfold reSubAllF at h
      rcases he : p (b :: t) with _ | ⟨pr, rest⟩
      · rw [he] at h
        rw [List.mem_cons] at h
        rcases h with h | h
        · exact Or.inr (by simp [h])
        · rcases ih t c h with h2 | h2
          · exact Or.inl h2
          · exact Or.inr (by simp [h2])
      · rw [he] at h
        dsimp at h
        by_cases hlen : pr.2.length < t.length + 1
        · rw [if_pos hlen, List.mem_append] at h
          rcases h with h | h
          · exact Or.inl h
          · rcases ih pr.2 c h with h2 | h2
            · exact Or.inl h2
            · obtain ⟨k, hk⟩ := hd (b :: t) pr (by rw [he]; simp)
              rw [hk] at h2
              exact Or.inr (List.mem_of_mem_drop h2)
        · rw [if_neg hlen, List.mem_cons] at h
          rcases h with h | h
          · exact Or.inr (by simp [h])
          · rcases ih t c h with h2 | h2
            · exact Or.inl h2
            · exact Or.inr (by simp [h2])

theorem rxDrops_rxTag : RxDrops rxTag :=
  rxDrops_seq (rxDrops_cl _) (rxDrops_seq (rxDrops_clPlusG _) (rxDrops_cl _))

theorem mem_stripTags {l : Txt} {c : Nat} (h : c ∈ stripTags l) : c ∈ l := by
  rcases mem_reSubAllF rxDrops_rxTag [] _ l c h with h2 | h2
  · simp at h2
  · exact h2

theorem mem_collapseWs {l : Txt} {c : Nat} (h : c ∈ collapseWs l) : c = 32 ∨ c ∈ l := by
  rcases mem_reSubAllF (rxDrops_clPlusG isWsC) [32] _ l c h with h2 | h2
  · simp at h2
    exact Or.inl h2
  · exact Or.inr h2

theorem cleanText_no_anchor {jd : Txt} (h : ∀ c ∈ jd, salaryAnchorC c = false) :
    ∀ c ∈ cleanText jd, salaryAnchorC c = false := by
  intro c hc
  rcases mem_collapseWs hc with h2 | h2
  · subst h2
    decide
  · exact h c (mem_stripTags h2)

theorem needs_dollar : RxNeeds salaryAnchorC (rCh '$'.cp) := by
  apply rxNeeds_cl
  intro a ha
  simp at ha
  simp [salaryAnchorC, ha]

theorem needs_kk : RxNeeds salaryAnchorC rKK := by
  apply rxNeeds_cl
  intro a ha
  simp at ha
  simp [salaryAnchorC, ha]

theorem needs_pct : RxNeeds salaryAnchorC (rCh '%'.cp) := by
  apply rxNeeds_cl
  intro a ha
  simp at ha
  simp [salaryAnchorC, ha]

theorem needs_colon : RxNeeds salaryAnchorC (rCh ':'.cp) := by
  apply rxNeeds_cl
  intro a ha
  simp at ha
  simp [salaryAnchorC, ha]

theorem rxDrops_chCI (c : Nat) : RxDrops (rChCI c) := rxDrops_cl _

theorem rxDrops_d23 : RxDrops rD23 := rxDrops_group (rxDrops_clBetween _ _ _)

theorem rxDrops_ws0 : RxDrops rWs0 := rxDrops_clStarG _

theorem rxDrops_ws1 : RxDrops rWs1 := rxDrops_clPlusG _

theorem rxDrops_sepDashTo : RxDrops rSepDashTo :=
  rxDrops_alt (rxDrops_cl _) (rxDrops_litCI _)

theorem rxDrops_leadIn : RxDrops rLeadIn := by
  apply rxDrops_alts
  intro p hp
  simp [rLeadIn] at hp
  rcases hp with h | h | h | h | h <;> (subst h; exact rxDrops_litCI _)

theorem rxDrops_ncpRaw : RxDrops rNumCommaPlusRaw :=
  rxDrops_seq (rxDrops_clBetween _ _ _)
    (rxDrops_plusG (rxDrops_seq (rxDrops_cl _) (rxDrops_clBetween _ _ _)))

theorem rxDrops_ncp : RxDrops rNumCommaPlus := rxDrops_group rxDrops_ncpRaw

theorem rxDrops_ncs : RxDrops rNumCommaStar :=
  rxDrops_group (rxDrops_seq (rxDrops_clBetween _ _ _)
    (rxDrops_starG (rxDrops_seq (rxDrops_cl _) (rxDrops_clBetween _ _ _))))

theorem needs_salPat1 : RxNeeds salaryAnchorC salPat1.rx :=
  rxNeeds_seq_left needs_dollar

theorem needs_salPat2 : RxNeeds salaryAnchorC salPat2.rx :=
  rxNeeds_seq_left needs_dollar

theorem needs_salPat3 : RxNeeds salaryAnchorC salPat3.rx :=
  rxNeeds_seq_left needs_dollar

theorem needs_salPat4 : RxNeeds salaryAnchorC salPat4.rx :=
  rxNeeds_seq_right rxDrops_leadIn
    (rxNeeds_seq_right rxDrops_ws1 (rxNeeds_seq_left needs_dollar))

theorem needs_salPat5 : RxNeeds salaryAnchorC salPat5.rx :=
  rxNeeds_seq_left needs_dollar

theorem needs_salPat6 : RxNeeds salaryAnchorC salPat6.rx :=
  rxNeeds_seq_left needs_dollar

theorem needs_salPat7 : RxNeeds salaryAnchorC salPat7.rx :=
  rxNeeds_seq_right rxDrops_leadIn
    (rxNeeds_seq_right rxDrops_ws1 (rxNeeds_seq_left needs_dollar))

theorem needs_salPat8 : RxNeeds salaryAnchorC salPat8.rx :=
  rxNeeds_seq_left needs_dollar

theorem needs_salPat9 : RxNeeds salaryAnchorC salPat9.rx :=
  rxNeeds_seq_left needs_dollar

theorem needs_salPat10 : RxNeeds salaryAnchorC salPat10.rx :=
  rxNeeds_seq_left needs_dollar

theorem needs_salPat11 : RxNeeds salaryAnchorC salPat11.rx :=
  rxNeeds_seq_right rxDrops_d23
    (rxNeeds_seq_right (rxDrops_opt (rxDrops_chCI _))
      (rxNeeds_seq_right rxDrops_ws0
        (rxNeeds_seq_right rxDrops_sepDashTo
          (rxNeeds_seq_right rxDrops_ws0
            (rxNeeds_seq_right rxDrops_d23
              (rxNeeds_seq_left needs_kk))))))

theorem needs_salPat12 : RxNeeds salaryAnchorC salPat12.rx :=
  rxNeeds_seq_right
    (rxDrops_group (rxDrops_seq (rxDrops_clPlusG _)
      (rxDrops_seq (rxDrops_opt (rxDrops_cl _)) (rxDrops_clStarG _))))
    (rxNeeds_seq_left needs_pct)

theorem needs_salPat13 : RxNeeds salaryAnchorC salPat13.rx :=
  rxNeeds_seq_right
    (by
      apply rxDrops_alts
      intro p hp
      simp [salPat13] at hp
      rcases hp with h | h | h | h <;> (subst h; exact rxDrops_litCI _))
    (rxNeeds_seq_left needs_colon)

theorem needs_salPat14 : RxNeeds salaryAnchorC salPat14.rx :=
  rxNeeds_seq_right (rxDrops_alt (rxDrops_litCI _) (rxDrops_litCI _))
    (rxNeeds_seq_right rxDrops_ws1
      (rxNeeds_seq_right (rxDrops_opt (rxDrops_seq (rxDrops_litCI _) rxDrops_ws1))
        (rxNeeds_seq_right (rxDrops_opt (rxDrops_seq (rxDrops_litCI _) rxDrops_ws1))
          (rxNeeds_seq_right (rxDrops_litCI _)
            (rxNeeds_seq_right (rxDrops_clStarL _)
              (rxNeeds_seq_left needs_dollar))))))

theorem needs_salPats : ∀ sp ∈ salPats, RxNeeds salaryAnchorC sp.rx := by
  intro sp hsp
  simp [salPats] at hsp
  rcases hsp with h | h | h | h | h | h | h | h | h | h | h | h | h | h <;> subst h
  · exact needs_salPat1
  · exact needs_salPat2
  · exact needs_salPat3
  · exact needs_salPat4
  · exact needs_salPat5
  · exact needs_salPat6
  · exact needs_salPat7
  · exact needs_salPat8
  · exact needs_salPat9
  · exact needs_salPat10
  · exact needs_salPat11
  · exact needs_salPat12
  · exact needs_salPat13
  · exact needs_salPat14

theorem needs_ctxPats : ∀ sp ∈ ctxPats, RxNeeds salaryAnchorC sp.rx := by
  intro sp hsp
  simp [ctxPats] at hsp
  rcases hsp with h | h | h | h <;> subst h <;> exact rxNeeds_seq_left needs_dollar

theorem firstPatternHit_none {pats : List SalPat}
    (hn : ∀ sp ∈ pats, RxNeeds salaryAnchorC sp.rx)
    {clean : Txt} (hf : ∀ c ∈ clean, salaryAnchorC c = false) :
    firstPatternHit pats clean = none := by
  induction pats with
  | nil => rfl
  | cons p rest ih =>
    have h1 : reFirst p.rx clean = none :=
      reFirst_none (hn p (by simp)) clean hf
    have h2 := ih (fun sp hsp => hn sp (List.mem_cons_of_mem _ hsp))
    simp [firstPatternHit, h1, h2]

theorem contextLoop_none {ms : List RCaps}
    (hc : ∀ caps ∈ ms, ∀ cap ∈ caps, ∀ c ∈ cap, salaryAnchorC c = false) :
    contextLoop ms = none := by
  induction ms with
  | nil => rfl
  | cons caps rest ih =>
    have hhead : ∀ c ∈ caps.headD [], salaryAnchorC c = false := by
      match caps with
      | [] => intro c hc2; simp at hc2
      | cap :: t => exact hc (cap :: t) (by simp) cap (by simp)
    have h1 : extractSalaryFromContext (caps.headD []) = none :=
      firstPatternHit_none needs_ctxPats hhead
    have h2 := ih (fun cs hcs => hc cs (List.mem_cons_of_mem _ hcs))
    simp only [contextLoop, ← List.headD_eq_head?_getD, h1, h2]

theorem kwRx_drops (kw : Txt) : RxDrops (kwRx kw) :=
  rxDrops_seq (rxDrops_litCI _)
    (rxDrops_seq (rxDrops_clPlusG _) (rxDrops_group (rxDrops_clPlusG _)))

theorem kwRx_capsSub (kw : Txt) : RxCapsSub (kwRx kw) :=
  rxCapsSub_seq (rxDrops_litCI _) (rxCapsSub_of_noCaps (rxNoCaps_litCI _))
    (rxCapsSub_seq (rxDrops_clPlusG _) (rxCapsSub_of_noCaps (rxNoCaps_clPlusG _))
      (rxCapsSub_group (rxCapsSub_of_noCaps (rxNoCaps_clPlusG _))))

theorem keywordPass_none {kws : List Txt} {clean : Txt}
    (hf : ∀ c ∈ clean, salaryAnchorC c = false) :
    keywordPass kws clean = none := by
  induction kws with
  | nil => rfl
  | cons kw rest ih =>
    have h1 : contextLoop (reAll (kwRx kw) clean) = none := by
      apply contextLoop_none
      intro caps hcaps cap hcap c hc
      have hcaps2 : caps ∈ reAllF (kwRx kw) (clean.length + 1) clean := hcaps
      exact hf c (reAllF_caps (kwRx_drops kw) (kwRx_capsSub kw)
        (clean.length + 1) clean caps hcaps2 cap hcap c hc)
    simp [keywordPass, h1, ih]

theorem truthyS_iff {l : Txt} : truthyS l = true ↔ l ≠ [] := by
  cases l <;> simp [truthyS]

theorem rxConsumes_cl (f : Nat → Bool) : RxConsumes (rCl f) := by
  intro l pr h
  match l with
  | [] => simp [rCl] at h
  | c :: t =>
    simp only [rCl] at h
    by_cases hf : f c = true
    · rw [hf] at h
      simp at h
      simp [h]
    · rw [Bool.not_eq_true] at hf
      rw [hf] at h
      simp at h

theorem rxConsumes_seq_left {p q : Rx} (hp : RxConsumes p) (hq : RxDrops q) :
    RxConsumes (rSeq p q) := by
  intro l pr h
  unfold rSeq at h
  rw [List.mem_flatMap] at h
  obtain ⟨a, ha, hmem⟩ := h
  rw [List.mem_map] at hmem
  obtain ⟨b, hb, rfl⟩ := hmem
  obtain ⟨k, hk⟩ := hq a.2 b hb
  dsimp only
  rw [hk]
  calc (a.2.drop k).length ≤ a.2.length := by simp
    _ < l.length := hp l a ha

theorem rxConsumes_litCI {lit : Txt} (h : lit ≠ []) : RxConsumes (rLitCI lit) := by
  match lit with
  | [] => exact absurd rfl h
  | c :: rest => exact rxConsumes_seq_left (rxConsumes_cl _) (rxDrops_litCI rest)

theorem reMatch_group_truthy {p : Rx} (hp : RxConsumes p) {l : Txt} {caps : RCaps}
    (h : reMatch (rGroup p) l = some caps) : truthyS (caps.headD []) = true := by
  unfold reMatch at h
  rcases he : rGroup p l with _ | ⟨pr, rest⟩
  · rw [he] at h; simp at h
  · rw [he] at h
    simp at h
    have hmem : pr ∈ rGroup p l := by rw [he]; simp
    unfold rGroup at hmem
    rw [List.mem_map] at hmem
    obtain ⟨b, hb, rfl⟩ := hmem
    have hlt : b.2.length < l.length := hp l b hb
    subst h
    dsimp only [List.headD]
    match l, hlt with
    | c :: t, hlt =>
      have : 0 < (c :: t).length - b.2.length := by
        simp only [List.length_cons] at hlt ⊢
        omega
      match hn : (c :: t).length - b.2.length, this with
      | k + 1, _ =>
        simp [truthyS, List.take]

theorem reFirst_group_truthy {p : Rx} (hp : RxConsumes p) :
    ∀ l caps, reFirst (rGroup p) l = some caps → truthyS (caps.headD []) = true := by
  intro l
  induction l with
  | nil =>
    intro caps h
    unfold reFirst at h
    rcases he : rGroup p [] with _ | ⟨pr, rest⟩
    · rw [he] at h; exact absurd h (by simp)
    · have hmem : pr ∈ rGroup p [] := by rw [he]; simp
      unfold rGroup at hmem
      rw [List.mem_map] at hmem
      obtain ⟨b, hb, rfl⟩ := hmem
      have := hp [] b hb
      simp at this
  | cons c t ih =>
    intro caps h
    unfold reFirst at h
    rcases he : rGroup p (c :: t) with _ | ⟨pr, rest⟩
    · rw [he] at h
      exact ih caps h
    · rw [he] at h
      simp at h
      have : reMatch (rGroup p) (c :: t) = some caps := by
        unfold reMatch
        rw [he]
        simp [h]
      exact reMatch_group_truthy hp this

theorem positionLitLoop_truthy {lits : List Txt} (hl : ∀ lit ∈ lits, lit ≠ [])
    {text : Txt} {m : Txt} (h : positionLitLoop lits text = some m) :
    truthyS m = true := by
  induction lits with
  | nil => simp [positionLitLoop] at h
  | cons lit rest ih =>
    unfold positionLitLoop at h
    rcases h1 : reFirst (rGroup (rLitCI lit)) text with _ | caps <;> rw [h1] at h
    · exact ih (fun l hl2 => hl l (List.mem_cons_of_mem _ hl2)) h
    · dsimp only at h
      rw [Option.some_inj] at h
      subst h
      exact reFirst_group_truthy (rxConsumes_litCI (hl lit (by simp))) text caps h1

theorem indicatorLoop_truthy {ips : List IndPat} {text m : Txt}
    (h : indicatorLoop ips text = some m) : truthyS m = true := by
  induction ips with
  | nil => simp [indicatorLoop] at h
  | cons ip rest ih =>
    unfold indicatorLoop at h
    rcases h1 : (if ip.anchored then reFirstLS ip.rx text else reFirst ip.rx text)
      with _ | caps <;> rw [h1] at h
    · exact ih h
    · dsimp only at h
      split_ifs at h with hlen
      · rw [Option.some_inj] at h
        subst h
        rw [truthyS_iff]
        intro hnil
        rw [hnil] at hlen
        simp at hlen
      · exact ih h

theorem extractPositionTitle_truthy {text m : Txt}
    (h : extractPositionTitle text = some m) : truthyS m = true := by
  unfold extractPositionTitle at h
  rcases h1 : positionLitLoop positionLits text with _ | m2 <;> rw [h1] at h
  · exact indicatorLoop_truthy h
  · simp at h
    subst h
    exact positionLitLoop_truthy (by decide) h1

theorem companyMatchLoop_truthy {ms : List RCaps} {m : Txt}
    (h : companyMatchLoop ms = some m) : truthyS m = true := by
  induction ms with
  | nil => simp [companyMatchLoop] at h
  | cons caps rest ih =>
    unfold companyMatchLoop at h
    rcases h1 : cleanCompanyName (stripWsL (caps.headD [])) with _ | c <;> rw [h1] at h
    · exact ih h
    · dsimp only at h
      split_ifs at h with ht
      · rw [Option.some_inj] at h
        subst h
        exact ht
      · exact ih h

theorem companyPatLoop_truthy {ml : Bool} {cps : List CompanyPat} {text m : Txt}
    (h : companyPatLoop ml cps text = some m) : truthyS m = true := by
  induction cps with
  | nil => simp [companyPatLoop] at h
  | cons cp rest ih =>
    unfold companyPatLoop at h
    rcases h1 : companyMatchLoop (companyMatches ml cp text) with _ | c <;> rw [h1] at h
    · exact ih h
    · simp at h
      subst h
      exact companyMatchLoop_truthy h1

theorem extractCompanyName_truthy {text m : Txt}
    (h : extractCompanyName text = some m) : truthyS m = true := by
  unfold extractCompanyName at h
  rcases h1 : companyPatLoop true companyPats (text.take 200) with _ | c <;> rw [h1] at h
  · exact companyPatLoop_truthy h
  · simp at h
    subst h
    exact companyPatLoop_truthy h1

theorem trO_none : TrO none := by
  intro s h
  simp at h

theorem trO_guard (o : Option Txt) : TrO (if truthyO o = true then o else none) := by
  split_ifs with h
  · intro s hs
    rw [hs] at h
    exact h
  · exact trO_none

theorem trO_ite_left {a b : Option Txt} (hb : TrO b) :
    TrO (if truthyO a = true then a else b) := by
  split_ifs with h
  · intro s hs
    rw [hs] at h
    exact h
  · exact hb

theorem trO_ite_guard {cond : Bool} {u c : Option Txt} (hc : TrO c)
    (hu : cond = true → truthyO u = true) : TrO (if cond = true then u else c) := by
  split_ifs with h
  · intro s hs
    have := hu h
    rw [hs] at this
    exact this
  · exact hc

theorem trO_some_iff {o : Option Txt} (h : TrO o) : truthyO o = true ↔ o ≠ none := by
  cases o with
  | none => simp [truthyO]
  | some s => simp [truthyO, h s rfl]

theorem trO_of_truthy {u : Option Txt} (h : truthyO u = true) : TrO u := by
  intro s hs
  rw [hs] at h
  exact h

theorem trO_ite_both {c : Prop} [Decidable c] {a b : Option Txt}
    (ha : TrO a) (hb : TrO b) : TrO (if c then a else b) := by
  split_ifs <;> assumption

theorem efc_tail_truthy (jd : Txt) (url : Option Txt) (c0 p0 : Option Txt) :
    TrO (let clean := cleanText jd
         let company1 := if truthyO c0 then c0 else extractCompanyName clean
         let position1 := if truthyO p0 then p0 else extractPositionTitle clean
         if (!truthyO company1 || !truthyO position1) && truthyO url then
           let (uc, up) := extract_from_url (getS url)
           ((if !truthyO company1 && truthyO uc then uc else company1),
            (if !truthyO position1 && truthyO up then up else position1))
         else (company1, position1)).1 ∧
    TrO (let clean := cleanText jd
         let company1 := if truthyO c0 then c0 else extractCompanyName clean
         let position1 := if truthyO p0 then p0 else extractPositionTitle clean
         if (!truthyO company1 || !truthyO position1) && truthyO url then
           let (uc, up) := extract_from_url (getS url)
           ((if !truthyO company1 && truthyO uc then uc else company1),
            (if !truthyO position1 && truthyO up then up else position1))
         else (company1, position1)).2 := by
  dsimp only
  have hc1 : TrO (if truthyO c0 = true then c0 else extractCompanyName (cleanText jd)) :=
    trO_ite_left (fun s hs => extractCompanyName_truthy hs)
  have hp1 : TrO (if truthyO p0 = true then p0 else extractPositionTitle (cleanText jd)) :=
    trO_ite_left (fun s hs => extractPositionTitle_truthy hs)
  rcases extract_from_url (getS url) with ⟨uc, up⟩
  dsimp only
  set company1 := if truthyO c0 = true then c0 else extractCompanyName (cleanText jd)
  set position1 := if truthyO p0 = true then p0 else extractPositionTitle (cleanText jd)
  constructor
  · rw [apply_ite Prod.fst]
    dsimp only
    exact trO_ite_both
      (trO_ite_guard hc1 (fun h => ((Bool.and_eq_true _ _).mp h).2)) hc1
  · rw [apply_ite Prod.snd]
    dsimp only
    exact trO_ite_both
      (trO_ite_guard hp1 (fun h => ((Bool.and_eq_true _ _).mp h).2)) hp1

theorem extract_from_content_truthy (jd : Txt) (url : Option Txt) :
    TrO (extract_from_content jd url).1 ∧ TrO (extract_from_content jd url).2 := by
  unfold extract_from_content
  cases hm : reFirst titleTagRx jd with
  | none =>
    exact efc_tail_truthy jd url none none
  | some caps =>
    dsimp only
    rcases parseJobTitle (stripWsL (List.headD caps [])) url with ⟨tc, tp⟩
    exact efc_tail_truthy jd url _ _

theorem firstPatternHit_truthy {pats : List SalPat} :
    ∀ {clean s : Txt}, firstPatternHit pats clean = some s → truthyS s = true := by
  induction pats with
  | nil => intro clean s h; simp [firstPatternHit] at h
  | cons p rest ih =>
    intro clean s h
    unfold firstPatternHit at h
    rcases h1 : reFirst p.rx clean with _ | caps <;> rw [h1] at h
    · exact ih h
    · dsimp only at h
      rcases h2 : formatSalaryMatch p.hasKK p.hasHourly p.hasPct caps
        with _ | t <;> rw [h2] at h
      · exact ih h
      · dsimp only at h
        split_ifs at h with ht
        · rw [Option.some_inj] at h
          subst h
          exact ht
        · exact ih h

theorem contextLoop_truthy {ms : List RCaps} :
    ∀ {s : Txt}, contextLoop ms = some s → truthyS s = true := by
  induction ms with
  | nil => intro s h; simp [contextLoop] at h
  | cons caps rest ih =>
    intro s h
    unfold contextLoop at h
    rcases h1 : extractSalaryFromContext (caps.headD []) with _ | t <;> rw [h1] at h
    · exact ih h
    · dsimp only at h
      split_ifs at h with ht
      · rw [Option.some_inj] at h
        subst h
        exact ht
      · exact ih h

theorem keywordPass_truthy {kws : List Txt} :
    ∀ {clean s : Txt}, keywordPass kws clean = some s → truthyS s = true := by
  induction kws with
  | nil => intro clean s h; simp [keywordPass] at h
  | cons kw rest ih =>
    intro clean s h
    unfold keywordPass at h
    rcases h1 : contextLoop (reAll (kwRx kw) clean) with _ | t <;> rw [h1] at h
    · exact ih h
    · rw [Option.some_inj] at h
      subst h
      exact contextLoop_truthy h1

theorem extract_salary_truthy (jd : Txt) : truthyS (extract_salary jd) = true := by
  unfold extract_salary
  split_ifs with ht
  · decide
  · dsimp only
    rcases h1 : firstPatternHit salPats (cleanText jd) with _ | s
    · dsimp only
      rcases h2 : keywordPass salaryKeywords (cleanText jd) with _ | s
      · decide
      · exact keywordPass_truthy h2
    · exact firstPatternHit_truthy h1

theorem trO_ne_none_iff {o : Option Txt} (h : TrO o) : o ≠ none ↔ truthyO o = true :=
  (trO_some_iff h).symm

theorem trO_eq_none_iff {o : Option Txt} (h : TrO o) : o = none ↔ truthyO o = false := by
  cases o with
  | none => simp [truthyO]
  | some s => simp [truthyO, h s rfl]

theorem parse_company_eq (net : Net) (jp : JParse) (jd : Txt) (url : Option Txt) :
    (parse_job_posting net jp jd url).company_name = (extract_from_content jd url).1 := rfl

theorem parse_position_eq (net : Net) (jp : JParse) (jd : Txt) (url : Option Txt) :
    (parse_job_posting net jp jd url).position_title =
      (if !truthyO (extract_from_content jd url).2 && truthyO url then
        if isSpaPage jd then
          match extractFromUrlPath (getS url) with
          | some up => if truthyS up then some up else (extract_from_content jd url).2
          | none => (extract_from_content jd url).2
        else (extract_from_content jd url).2
      else (extract_from_content jd url).2) := rfl

theorem parse_salary_eq (net : Net) (jp : JParse) (jd : Txt) (url : Option Txt) :
    (parse_job_posting net jp jd url).salary =
      (if extract_salary jd = "TBD".tx && isSpaPage jd && truthyO url then
        match extractSalaryFromSpa net jp jd url with
        | some s => if truthyS s then s else extract_salary jd
        | none => extract_salary jd
      else extract_salary jd) := rfl

theorem parse_conf_eq2 (net : Net) (jp : JParse) (jd : Txt) (url : Option Txt) :
    (parse_job_posting net jp jd url).confidence =
      confVal (truthyO (parse_job_posting net jp jd url).company_name)
        (truthyO (parse_job_posting net jp jd url).position_title)
        (isSpaPage jd) := rfl

theorem parse_company_TrO (net : Net) (jp : JParse) (jd : Txt) (url : Option Txt) :
    TrO (parse_job_posting net jp jd url).company_name := by
  rw [parse_company_eq]
  exact (extract_from_content_truthy jd url).1

theorem parse_position_TrO (net : Net) (jp : JParse) (jd : Txt) (url : Option Txt) :
    TrO (parse_job_posting net jp jd url).position_title := by
  rw [parse_position_eq]
  have h2 := (extract_from_content_truthy jd url).2
  split_ifs with h1 hspa
  · rcases hup : extractFromUrlPath (getS url) with _ | up
    · exact h2
    · dsimp only
      split_ifs with ht
      · exact trO_of_truthy ht
      · exact h2
  · exact h2
  · exact h2

theorem parse_salary_truthy (net : Net) (jp : JParse) (jd : Txt) (url : Option Txt) :
    truthyS (parse_job_posting net jp jd url).salary = true := by
  rw [parse_salary_eq]
  split_ifs with h1
  · rcases hs : extractSalaryFromSpa net jp jd url with _ | s
    · exact extract_salary_truthy jd
    · dsimp only
      split_ifs with ht
      · exact ht
      · exact extract_salary_truthy jd
  · exact extract_salary_truthy jd

theorem parse_suggested_codomain (net : Net) (jp : JParse) (jd : Txt) (url : Option Txt) :
    (parse_job_posting net jp jd url).suggested_template = none ∨
    (parse_job_posting net jp jd url).suggested_template = some "senior_engineering_manager".tx ∨
    (parse_job_posting net jp jd url).suggested_template = some "data_engineering_manager".tx ∨
    (parse_job_posting net jp jd url).suggested_template = some "engineering_manager".tx ∨
    (parse_job_posting net jp jd url).suggested_template = some "senior_software_engineer".tx := by
  rw [parse_suggested_eq]
  split_ifs with h
  · exact select_resume_template_codomain _
  · exact Or.inl rfl

theorem confVal_codomain (c p s : Bool) :
    confVal c p s = "high".tx ∨ confVal c p s = "medium".tx ∨ confVal c p s = "low".tx := by
  cases c <;> cases p <;> cases s <;> decide

/-! # C8: bare numbers without salary anchors are never salary -/

/-- **C8.**  For every input text containing none of the salary anchor
characters — no currency symbol `$`, no `k`/`K` thousands marker, no `%`
equity figure and no `:` label separator, so in particular no digit
sequence accompanied by any such marker — `extract_salary` returns the
sentinel `"TBD"`: every one of the fourteen salary patterns and the
keyword-context pass requires an anchor character, so an isolated bare
number such as a phone number or ID string is never treated as a
salary. -/
theorem c8_bare_numbers_never_salary (jd : Txt)
    (h : ∀ c ∈ jd, salaryAnchorC c = false) :
    extract_salary jd = "TBD".tx := by
  unfold extract_salary
  by_cases ht : truthyS jd
  · have hclean := cleanText_no_anchor h
    have h1 : firstPatternHit salPats (cleanText jd) = none :=
      firstPatternHit_none needs_salPats hclean
    have h2 : keywordPass salaryKeywords (cleanText jd) = none :=
      keywordPass_none hclean
    simp [ht, h1, h2]
  · simp [ht]

/-- **C8 witness.**  The claim's own example: the bare phone number
`555-123-4567` contains no salary anchor character and yields `"TBD"`. -/
theorem c8_bare_numbers_never_salary_witness :
    (∀ c ∈ "555-123-4567".tx, salaryAnchorC c = false) ∧
    extract_salary "555-123-4567".tx = "TBD".tx :=
  ⟨by decide, c8_bare_numbers_never_salary "555-123-4567".tx (by decide)⟩

/-! # C1: parse_job_posting always returns a well-formed record -/

/-- **C1.**  For every job-description text (including the empty one),
every URL (`some` string or `none`), and every behaviour of the network
and JSON collaborators, `parse_job_posting` returns a well-formed
record: `salary` is a nonempty string (it defaults to `"TBD"`),
`suggested_template` is `none` or one of the four fixed template
identifiers, and `confidence` is one of `high`/`medium`/`low`.
`company_name` and `position_title` are strings-or-null by the record
type, and "never raises" is modeled by `parse_job_posting` being a total
Lean function. -/
theorem c1_wellformed_record (net : Net) (jp : JParse) (jd : Txt) (url : Option Txt) :
    truthyS (parse_job_posting net jp jd url).salary = true ∧
    ((parse_job_posting net jp jd url).suggested_template = none ∨
     (parse_job_posting net jp jd url).suggested_template = some "senior_engineering_manager".tx ∨
     (parse_job_posting net jp jd url).suggested_template = some "data_engineering_manager".tx ∨
     (parse_job_posting net jp jd url).suggested_template = some "engineering_manager".tx ∨
     (parse_job_posting net jp jd url).suggested_template = some "senior_software_engineer".tx) ∧
    ((parse_job_posting net jp jd url).confidence = "high".tx ∨
     (parse_job_posting net jp jd url).confidence = "medium".tx ∨
     (parse_job_posting net jp jd url).confidence = "low".tx) := by
  refine ⟨parse_salary_truthy net jp jd url, parse_suggested_codomain net jp jd url, ?_⟩
  rw [parse_conf_eq2]
  exact confVal_codomain _ _ _

/-! # C2: the confidence table -/

/-- **C2.**  For every input, `confidence` is `high` iff both
`company_name` and `position_title` are non-null and the page is not
detected as script-rendered; `medium` iff exactly one of the two
resolved off a script-rendered page, or both resolved on one; `low` iff
neither resolved, or exactly one resolved on a script-rendered page.
In particular it is never `high` when either field is null. -/
theorem c2_confidence_levels (net : Net) (jp : JParse) (jd : Txt) (url : Option Txt) :
    ((parse_job_posting net jp jd url).confidence = "high".tx ↔
       ((parse_job_posting net jp jd url).company_name ≠ none ∧
        (parse_job_posting net jp jd url).position_title ≠ none ∧
        isSpaPage jd = false)) ∧
    ((parse_job_posting net jp jd url).confidence = "medium".tx ↔
       ((((parse_job_posting net jp jd url).company_name ≠ none ∧
          (parse_job_posting net jp jd url).position_title = none) ∨
         ((parse_job_posting net jp jd url).company_name = none ∧
          (parse_job_posting net jp jd url).position_title ≠ none)) ∧ isSpaPage jd = false ∨
        ((parse_job_posting net jp jd url).company_name ≠ none ∧
         (parse_job_posting net jp jd url).position_title ≠ none ∧ isSpaPage jd = true))) ∧
    ((parse_job_posting net jp jd url).confidence = "low".tx ↔
       (((parse_job_posting net jp jd url).company_name = none ∧
         (parse_job_posting net jp jd url).position_title = none) ∨
        (((parse_job_posting net jp jd url).company_name ≠ none ∧
          (parse_job_posting net jp jd url).position_title = none) ∨
         ((parse_job_posting net jp jd url).company_name = none ∧
          (parse_job_posting net jp jd url).position_title ≠ none)) ∧ isSpaPage jd = true)) := by
  have hTC := parse_company_TrO net jp jd url
  have hTP := parse_position_TrO net jp jd url
  rw [parse_conf_eq2, trO_ne_none_iff hTC, trO_ne_none_iff hTP,
      trO_eq_none_iff hTC, trO_eq_none_iff hTP]
  rcases Bool.eq_false_or_eq_true
      (truthyO (parse_job_posting net jp jd url).company_name) with hcb | hcb <;>
  rcases Bool.eq_false_or_eq_true
      (truthyO (parse_job_posting net jp jd url).position_title) with hpb | hpb <;>
  rcases Bool.eq_false_or_eq_true (isSpaPage jd) with hsb | hsb <;>
  rw [hcb, hpb, hsb] <;> decide
